import Mathlib

/-!
Shallow embedding of the job-orchestration core of the tiktok_downloader
repository (src/app/redis_client.py, src/app/worker.py, src/app/bot.py,
src/app/downloader.py, src/app/main.py), together with proofs that settle
the frozen claims C1 to C10 about it.

Conventions of the embedding:
- Redis is modelled as an explicit state record (`RedisState`); every
  method of `RedisClient` becomes a pure state transformer with the same
  name.  Redis lists keep lpush at the head and rpop at the tail, as in
  the source.
- Each `await` in the Python source is an interleaving point of the
  asyncio event loop; a scheduled execution is modelled by composing the
  corresponding state transformers in the order of the chosen schedule.
- The network (the TikTok scraper and the HTTP video fetch) and the disk
  are external oracles, passed as explicit parameters.
- Python `str(dict)` serialization (used by `update_download_status`) is
  reproduced character for character: single-quoted keys and values,
  `True` for booleans, comma-space separators.
-/

/-- The double-quote character, written numerically. -/
def dqChar : Char := Char.ofNat 34

/-- The single-quote character, written numerically. -/
def sqChar : Char := Char.ofNat 39

/-- One-character string holding a double quote. -/
def dqStr : String := String.singleton dqChar

/-- One-character string holding a single quote. -/
def sqStr : String := String.singleton sqChar

/-- Substring containment on character lists, mirroring the Python
`in` operator on `str`. -/
def listContainsSub (needle : List Char) : List Char → Bool
  | [] => needle.isEmpty
  | c :: t => needle.isPrefixOf (c :: t) || listContainsSub needle t

/-- Python `needle in hay` for strings. -/
def strContains (hay needle : String) : Bool :=
  listContainsSub needle.data hay.data

/-- Python `s.lower()` (ASCII case, which is all the source compares). -/
def lowerStr (s : String) : String := s.map Char.toLower

/-- A string containing no double-quote character.  Every value the
worker ever stores in a downloads hash is double-quote free, which is
what makes `get_job_stats` count zero (its needles contain double
quotes). -/
def dqFreeB (s : String) : Bool := s.data.all (fun c => !(c == dqChar))

/-- Python repr of a string that itself holds no quote: wrap in single
quotes. -/
def pyReprStr (v : String) : String := sqStr ++ v ++ sqStr

/-- Values that can appear in the kwargs of `update_download_status`:
strings, ints and booleans. -/
inductive PyVal where
  | s (v : String)
  | i (v : Int)
  | b (v : Bool)
  deriving DecidableEq

/-- Python repr of a `PyVal`, as it appears inside `str(dict)`. -/
def PyVal.repr : PyVal → String
  | .s v => pyReprStr v
  | .i v => toString v
  | .b true => "True"
  | .b false => "False"

/-- One `key: value` pair inside a Python `str(dict)`. -/
def pyPair (k v : String) : String := pyReprStr k ++ (": ") ++ v

/-- Comma-space join, as Python uses between dict entries. -/
def joinComma : List String → String
  | [] => ""
  | [x] => x
  | x :: y :: xs => x ++ (", ") ++ joinComma (y :: xs)

/-- `str({"status": status, **kwargs})` — the exact string that
`RedisClient.update_download_status` stores as the value of the
per-job downloads hash (redis_client.py lines 111-117).  Python `str`
of a dict uses single quotes around keys and string values. -/
def update_download_status_value (status : String) (kwargs : List (String × PyVal)) : String :=
  ("\x7b") ++
    joinComma ((pyPair ("status") (pyReprStr status)) ::
      kwargs.map (fun kv => pyPair kv.1 kv.2.repr)) ++
  ("\x7d")

/-- The needle `"status": "completed"` (with double quotes) that
`get_job_stats` searches for (redis_client.py line 123). -/
def completedNeedle : String :=
  dqStr ++ ("status") ++ dqStr ++ (": ") ++ dqStr ++ ("completed") ++ dqStr

/-- The needle `"status": "failed"` (with double quotes) that
`get_job_stats` searches for (redis_client.py line 124). -/
def failedNeedle : String :=
  dqStr ++ ("status") ++ dqStr ++ (": ") ++ dqStr ++ ("failed") ++ dqStr

/-- Result of `RedisClient.get_job_stats`. -/
structure JobStats where
  total : Nat
  completed : Nat
  failed : Nat
  in_progress : Nat
  deriving DecidableEq

/-- `RedisClient.get_job_stats` (redis_client.py lines 119-131), as a
function of the per-job downloads hash, given as an association list
from video_id to the stored serialized value. -/
def get_job_stats (downloads : List (String × String)) : JobStats :=
  let total := downloads.length
  let completed := (downloads.filter (fun kv => strContains kv.2 completedNeedle)).length
  let failed := (downloads.filter (fun kv => strContains kv.2 failedNeedle)).length
  { total := total, completed := completed, failed := failed,
    in_progress := total - completed - failed }

/-- The value the worker stores for a successfully completed download
(worker.py lines 257-261): status completed, progress 100, file_path. -/
def workerCompletedValue (fp : String) : String :=
  update_download_status_value ("completed") [(("progress"), .i 100), (("file_path"), .s fp)]

/-- The value the worker stores when reusing an existing download
(worker.py lines 200-205): status completed, progress 100, file_path,
reused True. -/
def workerReusedValue (fp : String) : String :=
  update_download_status_value ("completed")
    [(("progress"), .i 100), (("file_path"), .s fp), (("reused"), .b true)]

/-- The value the worker stores when a download starts
(worker.py 238-240). -/
def workerDownloadingValue : String :=
  update_download_status_value ("downloading") [(("progress"), .i 0)]

/-- The value the worker stores when a download fails
(worker.py 297-299): status failed, error message. -/
def workerFailedValue (err : String) : String :=
  update_download_status_value ("failed") [(("error"), .s err)]

/-- Metadata stored per video by `add_video_to_download`
(worker.py 86-93, redis_client.py 96-101). -/
structure VideoData where
  video_url : String
  description : String
  username : String
  deriving DecidableEq

/-- The Redis keyspace touched by the pipeline.  Hash fields of
`job:{id}` are modelled as typed per-field maps; `total_videos` is kept
as the number its stored decimal string denotes (the source converts
with `int(...)` on read and `str(...)` on write).  Lists keep the lpush
side at the head; rpop and brpop take from the tail. -/
structure RedisState where
  jobStatus : String → Option String
  jobError : String → Option String
  jobTotal : String → Option Nat
  jobDownloadedField : String → Option Nat
  jobFailedField : String → Option Nat
  videos : String → String → Option VideoData
  downloads : String → List (String × String)
  pending : String → List String
  downloadedSet : String → Bool
  videoFiles : String → Option String
  sentVideos : Int → String → Bool
  sendQueue : List String
  downloadQueue : List String
  jobQueue : List String
  jobChat : String → Option Int

/-- Set or replace a key in an association list (Redis hset on one
field). -/
def assocSet (l : List (String × String)) (k v : String) : List (String × String) :=
  match l with
  | [] => [(k, v)]
  | (k0, v0) :: t => if k0 = k then (k, v) :: t else (k0, v0) :: assocSet t k v

/-- Pop up to `n` elements from the rpop end (the tail) of a Redis
list; returns them in pop order together with the remaining list. -/
def rpopN (n : Nat) (l : List String) : List String × List String :=
  (l.reverse.take n, (l.reverse.drop n).reverse)

/-- `RedisClient.add_pending_video` (redis_client.py 39-41): lpush
`video_id:filepath` onto the per-job pending list. -/
def add_pending_video (s : RedisState) (job vid fp : String) : RedisState :=
  { s with pending := fun j =>
      if j = job then (vid ++ (":") ++ fp) :: s.pending j else s.pending j }

/-- `RedisClient.get_pending_video_count` (redis_client.py 54-56). -/
def get_pending_video_count (s : RedisState) (job : String) : Nat :=
  (s.pending job).length

/-- `RedisClient.get_pending_videos` (redis_client.py 43-52): rpop up to
`count` entries. -/
def get_pending_videos (s : RedisState) (job : String) (count : Nat) :
    List String × RedisState :=
  let (popped, rest) := rpopN count (s.pending job)
  (popped, { s with pending := fun j => if j = job then rest else s.pending j })

/-- `RedisClient.is_video_sent` (redis_client.py 58-60). -/
def is_video_sent (s : RedisState) (chat : Int) (vid : String) : Bool :=
  s.sentVideos chat vid

/-- `RedisClient.mark_video_sent` (redis_client.py 62-65). -/
def mark_video_sent (s : RedisState) (chat : Int) (vid : String) : RedisState :=
  { s with sentVideos := fun c v =>
      if c = chat ∧ v = vid then true else s.sentVideos c v }

/-- `RedisClient.is_video_downloaded` (redis_client.py 67-69). -/
def is_video_downloaded (s : RedisState) (vid : String) : Bool :=
  s.downloadedSet vid

/-- `RedisClient.mark_video_downloaded` (redis_client.py 71-75): sadd to
the global set and hset the filepath. -/
def mark_video_downloaded (s : RedisState) (vid fp : String) : RedisState :=
  { s with
    downloadedSet := fun v => if v = vid then true else s.downloadedSet v,
    videoFiles := fun v => if v = vid then some fp else s.videoFiles v }

/-- `RedisClient.get_video_filepath` (redis_client.py 77-79). -/
def get_video_filepath (s : RedisState) (vid : String) : Option String :=
  s.videoFiles vid

/-- `RedisClient.update_download_status` (redis_client.py 111-117),
taking the already-serialized `str(dict)` value (built at the call
sites with `update_download_status_value`). -/
def update_download_status (s : RedisState) (job vid value : String) : RedisState :=
  { s with downloads := fun j =>
      if j = job then assocSet (s.downloads j) vid value else s.downloads j }

/-- `RedisClient.add_video_to_download` (redis_client.py 96-101): hset
the video data and lpush `job_id:video_id` onto the download queue. -/
def add_video_to_download (s : RedisState) (job vid : String) (vd : VideoData) : RedisState :=
  { s with
    videos := fun j v => if j = job ∧ v = vid then some vd else s.videos j v,
    downloadQueue := (job ++ (":") ++ vid) :: s.downloadQueue }

/-- Observable actions of one worker execution, used to state trace
properties (which Redis writes happened, whether the downloader was
invoked, whether the completion check ran). -/
inductive WorkerAction where
  | setJobStatus (job status : String)
  | updateDownloadStatus (job vid status : String)
  | markVideoDownloaded (vid fp : String)
  | addPendingVideo (job vid fp : String)
  | pushSendVideosQueue (job : String)
  | getJobStats (job : String)
  | downloadVideo (vid : String)
  | addVideoToDownload (job vid : String)
  | notifyUser (chat : Int)
  deriving DecidableEq

/-- Number of occurrences of an action in a trace. -/
def countAction (tr : List WorkerAction) (a : WorkerAction) : Nat :=
  (tr.filter (fun x => decide (x = a))).length

/-- Outcome of one call to `VideoDownloader.download_video` as seen by
the worker: a returned filepath, or a raised exception message. -/
inductive DLResult where
  | ok (fp : String)
  | err (msg : String)
  deriving DecidableEq

/-- The completion check the worker runs after recording a terminal
download (worker.py 276-293, duplicated at 218-234 for the reuse path):
read `get_job_stats`, read `total_videos` (0 when unset), and when
`completed + failed >= total` write status completed plus the two count
fields and, if the pending list is non-empty, lpush the job onto
`send_videos_queue` for a final flush. -/
def pd_completion_check (s : RedisState) (job : String) : RedisState × List WorkerAction :=
  let stats := get_job_stats (s.downloads job)
  let total := (s.jobTotal job).getD 0
  if stats.completed + stats.failed ≥ total then
    let s1 : RedisState := { s with
      jobStatus := fun j => if j = job then some ("completed") else s.jobStatus j,
      jobDownloadedField := fun j => if j = job then some stats.completed else s.jobDownloadedField j,
      jobFailedField := fun j => if j = job then some stats.failed else s.jobFailedField j }
    if 0 < (s1.pending job).length then
      ({ s1 with sendQueue := job :: s1.sendQueue },
       [.getJobStats job, .setJobStatus job ("completed"), .pushSendVideosQueue job])
    else
      (s1, [.getJobStats job, .setJobStatus job ("completed")])
  else
    (s, [.getJobStats job])

/-- After a download reaches completed: add the video to the pending
list, trigger a batch flush when the pending count reaches 5, then run
the completion check (worker.py 266-293; same lines 208-234 on the
reuse path). -/
def pd_enqueue_and_check (s : RedisState) (job vid fp : String) : RedisState × List WorkerAction :=
  let s1 := add_pending_video s job vid fp
  let r2 : RedisState × List WorkerAction :=
    if get_pending_video_count s1 job ≥ 5 then
      ({ s1 with sendQueue := job :: s1.sendQueue }, [WorkerAction.pushSendVideosQueue job])
    else (s1, ([] : List WorkerAction))
  let r3 := pd_completion_check r2.1 job
  (r3.1, [WorkerAction.addPendingVideo job vid fp] ++ r2.2 ++ r3.2)

/-- The reuse branch of `Worker.process_download` (worker.py 199-235):
the video is in the global set with a stored filepath, so record the
task completed (reused) without calling the downloader. -/
def pd_reuse_path (s : RedisState) (job vid fp : String) : RedisState × List WorkerAction :=
  let s1 := update_download_status s job vid (workerReusedValue fp)
  let r2 := pd_enqueue_and_check s1 job vid fp
  (r2.1, [WorkerAction.updateDownloadStatus job vid ("completed")] ++ r2.2)

/-- The fresh-download branch of `Worker.process_download`
(worker.py 237-299): write the downloading status, call the downloader,
then either record completion (mark global, record status, enqueue and
check) or, when the downloader raised, record only the failed status —
the except handler at 295-299 performs no counter update and no
completion check. -/
def pd_download_path (s : RedisState) (job vid : String) (dl : DLResult) : RedisState × List WorkerAction :=
  let s1 := update_download_status s job vid workerDownloadingValue
  let t1 := [WorkerAction.updateDownloadStatus job vid ("downloading"), WorkerAction.downloadVideo vid]
  match dl with
  | .ok fp =>
    let s2 := mark_video_downloaded s1 vid fp
    let s3 := update_download_status s2 job vid (workerCompletedValue fp)
    let r4 := pd_enqueue_and_check s3 job vid fp
    (r4.1, t1 ++ [WorkerAction.markVideoDownloaded vid fp,
                WorkerAction.updateDownloadStatus job vid ("completed")] ++ r4.2)
  | .err msg =>
    (update_download_status s1 job vid (workerFailedValue msg),
     t1 ++ [WorkerAction.updateDownloadStatus job vid ("failed")])

/-- `Worker.process_download` (worker.py 171-299).  The downloader call
is the oracle `dl`.  Missing video data returns without acting
(worker.py 181-183).  A video in the global set with a non-empty stored
filepath takes the reuse branch; with a missing or empty filepath the
code logs and re-downloads (worker.py 196-197). -/
def process_download (s : RedisState) (job vid : String) (dl : DLResult) : RedisState × List WorkerAction :=
  match s.videos job vid with
  | none => (s, [])
  | some _ =>
    if is_video_downloaded s vid then
      match get_video_filepath s vid with
      | some fp => if fp = "" then pd_download_path s job vid dl else pd_reuse_path s job vid fp
      | none => pd_download_path s job vid dl
    else
      pd_download_path s job vid dl

/-- Job creation (main.py 71-104 `/scrape`): write the job hash with
status pending, `total_videos` "0", zero count fields, lpush the job
onto the job queue; the bot then stores the job-to-chat mapping
(bot.py 109-111). -/
def create_job (s : RedisState) (job _username : String) (chat : Int) : RedisState × List WorkerAction :=
  ({ s with
     jobStatus := fun j => if j = job then some ("pending") else s.jobStatus j,
     jobError := fun j => if j = job then none else s.jobError j,
     jobTotal := fun j => if j = job then some 0 else s.jobTotal j,
     jobDownloadedField := fun j => if j = job then some 0 else s.jobDownloadedField j,
     jobFailedField := fun j => if j = job then some 0 else s.jobFailedField j,
     jobQueue := job :: s.jobQueue,
     jobChat := fun j => if j = job then some chat else s.jobChat j },
   [WorkerAction.setJobStatus job ("pending")])

/-- Outcome of the scrape phase for one job, as the worker observes it:
an exception from `get_user_profile`, an exception from
`scrape_user_videos` (the scrapers raise on zero videos:
scraper.py 196-197), or a scraped list of videos. -/
inductive ScrapeOutcome where
  | profileError (msg : String)
  | videosError (msg : String)
  | success (videos : List (String × VideoData))
  deriving DecidableEq

/-- Whether the outcome is a scrape-time error. -/
def ScrapeOutcome.isErr : ScrapeOutcome → Bool
  | .profileError _ => true
  | .videosError _ => true
  | .success _ => false

/-- The pre-packaged cookie hint the worker substitutes for
bot-detection errors (worker.py 109-113). -/
def cookieErrorMsg : String :=
  "TikTok detected bot activity. Please add TIKTOK_COOKIE to .env file. See GET_COOKIE.md for instructions."

/-- The error-message rewrite of the scrape failure handler
(worker.py 105-113). -/
def transformErrorMsg (m : String) : String :=
  if strContains (lowerStr m) ("bot") || strContains (lowerStr m) ("empty response") then
    cookieErrorMsg
  else m

/-- The enqueue loop of the scrape success path (worker.py 86-93):
one `add_video_to_download` per scraped video, in order. -/
def scrapeEnqueueState (job : String) : List (String × VideoData) → RedisState → RedisState
  | [], s => s
  | v :: rest, s => scrapeEnqueueState job rest (add_video_to_download s job v.1 v.2)

/-- First half of the scrape success path (worker.py 70-93): mark the
job scraping, then enqueue one download task per scraped video.  The
`downloading` status and `total_videos` are written only afterwards, in
`scrapeFinishPart` — the split marks the await boundary between the
enqueue loop and the final `update_job`. -/
def scrapeEnqueuePart (s : RedisState) (job : String) (videos : List (String × VideoData)) :
    RedisState × List WorkerAction :=
  let s1 : RedisState :=
    { s with jobStatus := fun j => if j = job then some ("scraping") else s.jobStatus j }
  (scrapeEnqueueState job videos s1,
   WorkerAction.setJobStatus job ("scraping") ::
     videos.map (fun v => WorkerAction.addVideoToDownload job v.1))

/-- Second half of the scrape success path (worker.py 95-100): set
status downloading and `total_videos`. -/
def scrapeFinishPart (s : RedisState) (job : String) (n : Nat) : RedisState × List WorkerAction :=
  ({ s with
     jobStatus := fun j => if j = job then some ("downloading") else s.jobStatus j,
     jobTotal := fun j => if j = job then some n else s.jobTotal j },
   [WorkerAction.setJobStatus job ("downloading")])

/-- One iteration of `Worker.scrape_worker` on a popped job
(worker.py 58-141), with the scraper outcome as oracle.  On a scrape
error the handler stores status failed with the rewritten message and
sends a best-effort notification to the mapped chat (worker.py 115-141);
no download task is ever enqueued on that path. -/
def scrape_worker_once (s : RedisState) (job : String) (outcome : ScrapeOutcome) :
    RedisState × List WorkerAction :=
  match outcome with
  | .success videos =>
    let r1 := scrapeEnqueuePart s job videos
    let r2 := scrapeFinishPart r1.1 job videos.length
    (r2.1, r1.2 ++ r2.2)
  | .profileError m | .videosError m =>
    let s1 : RedisState :=
      { s with jobStatus := fun j => if j = job then some ("scraping") else s.jobStatus j }
    let em := transformErrorMsg m
    let s2 : RedisState :=
      { s1 with
        jobStatus := fun j => if j = job then some ("failed") else s1.jobStatus j,
        jobError := fun j => if j = job then some em else s1.jobError j }
    let tn := match s2.jobChat job with
      | some c => [WorkerAction.notifyUser c]
      | none => []
    (s2, [WorkerAction.setJobStatus job ("scraping"),
          WorkerAction.setJobStatus job ("failed")] ++ tn)

/-- The job-status writes for one job that a trace contains, in order. -/
def statusWrites (job : String) (tr : List WorkerAction) : List String :=
  tr.filterMap fun a =>
    match a with
    | .setJobStatus j v => if j = job then some v else none
    | _ => none

/-- The lifecycle property claimed by the spec: the observed status
sequence is a subsequence of pending, scraping, downloading, then
completed or failed (so each state appears at most once, in order, and
nothing follows a terminal state). -/
def monotonicLifecycle (l : List String) : Bool :=
  l.isSublist [("pending"), ("scraping"), ("downloading"), ("completed")] ||
  l.isSublist [("pending"), ("scraping"), ("downloading"), ("failed")]

/-- Result of one HTTP GET of a video binary, as `download_video`
observes it: a transport-level exception, or a response with a success
flag (raise_for_status), an error message for the raise, and the list
of body chunk sizes that `aiter_bytes` yields. -/
inductive HttpResult where
  | transportError (msg : String)
  | response (statusOk : Bool) (statusMsg : String) (chunks : List Nat)
  deriving DecidableEq

/-- Outcome of `VideoDownloader.download_video`: a returned path or a
raised exception message. -/
inductive DownloadOutcome where
  | ok (path : String)
  | raised (msg : String)
  deriving DecidableEq

/-- The destination `{download_path}/{username}/{video_id}.mp4`
(downloader.py 29-34). -/
def videoFilePath (download_path username video_id : String) : String :=
  download_path ++ ("/") ++ username ++ ("/") ++ video_id ++ (".mp4")

/-- `VideoDownloader.download_video` (downloader.py 19-73).  `disk` is
the set of paths existing on disk; the HTTP exchange is the oracle
`http`.  Returns the outcome, whether a network fetch was issued, and
the number of body bytes written.  If the destination file already
exists the stored path is returned at once with no fetch
(downloader.py 37-40).  A response that completes with zero bytes of
body is returned as success — the code has no zero-byte check. -/
def download_video (disk : String → Bool) (download_path _video_url video_id username : String)
    (http : HttpResult) : DownloadOutcome × Bool × Nat :=
  let filepath := videoFilePath download_path username video_id
  if disk filepath then (.ok filepath, false, 0)
  else
    match http with
    | .transportError m => (.raised m, true, 0)
    | .response ok m chunks =>
      if ok then (.ok filepath, true, chunks.sum)
      else (.raised m, true, 0)

/-- Convert a downloader outcome into the oracle `process_download`
consumes. -/
def DLResult.ofOutcome : DownloadOutcome → DLResult
  | .ok p => .ok p
  | .raised m => .err m

/-- Observable actions of the bot sender: a Notifier send_video call, a
delivery-set write, a per-flush summary message. -/
inductive BotAction where
  | sendVideo (chat : Int) (vid : String)
  | markSent (chat : Int) (vid : String)
  | sendSummary (chat : Int) (sentCount skipped : Nat)
  deriving DecidableEq

/-- The colon character. -/
def colonChar : Char := Char.ofNat 58

/-- Split a character list at the first colon. -/
def splitCharsAtColon : List Char → List Char × List Char
  | [] => ([], [])
  | c :: t =>
    if c = colonChar then ([], t)
    else
      let (a, b) := splitCharsAtColon t
      (c :: a, b)

/-- Python `e.split(":", 1)` on a pending entry: video_id before the
first colon, filepath after it. -/
def splitFirstColon (e : String) : String × String :=
  let (a, b) := splitCharsAtColon e.data
  (String.mk a, String.mk b)

/-- The per-entry loop of `TikTokBot.send_videos_batch`
(bot.py 299-340), threading the Redis state: an entry with no colon
raises at unpacking and is skipped by the except; an already-sent pair
is skipped and counted; a missing file is skipped without counting;
otherwise the Notifier is invoked and the pair marked sent.  Returns
(state, trace, sent_count, skipped_count). -/
def sendLoop (fileExists : String → Bool) (chat : Int) :
    List String → RedisState → RedisState × List BotAction × Nat × Nat
  | [], s => (s, [], 0, 0)
  | e :: rest, s =>
    if e.data.contains colonChar = false then
      sendLoop fileExists chat rest s
    else
      let vid := (splitFirstColon e).1
      let fp := (splitFirstColon e).2
      if is_video_sent s chat vid then
        let r := sendLoop fileExists chat rest s
        (r.1, r.2.1, r.2.2.1, r.2.2.2 + 1)
      else if fileExists fp = false then
        sendLoop fileExists chat rest s
      else
        let s1 := mark_video_sent s chat vid
        let r := sendLoop fileExists chat rest s1
        (r.1, BotAction.sendVideo chat vid :: BotAction.markSent chat vid :: r.2.1,
         r.2.2.1 + 1, r.2.2.2)

/-- `TikTokBot.send_videos_batch` (bot.py 286-354): rpop up to five
pending entries, deliver them through `sendLoop`, then send one summary
message when anything was sent or skipped. -/
def send_videos_batch (fileExists : String → Bool) (s : RedisState) (job : String) (chat : Int) :
    RedisState × List BotAction × Nat × Nat :=
  let pr := get_pending_videos s job 5
  let r := sendLoop fileExists chat pr.1 pr.2
  let tr :=
    if r.2.2.1 > 0 || r.2.2.2 > 0 then
      r.2.1 ++ [BotAction.sendSummary chat r.2.2.1 r.2.2.2]
    else r.2.1
  (r.1, tr, r.2.2.1, r.2.2.2)

/-- A sequence of batch flushes, as `video_sender_worker` executes them
one at a time (bot.py 356-379): each element is the popped job id with
the chat looked up from the mapping; here both are quantified, which
covers every mapping. -/
def runFlushes (fileExists : String → Bool) :
    List (String × Int) → RedisState → RedisState × List BotAction
  | [], s => (s, [])
  | jc :: rest, s =>
    let r := send_videos_batch fileExists s jc.1 jc.2
    let r2 := runFlushes fileExists rest r.1
    (r2.1, r.2.1 ++ r2.2)

/-- Number of Notifier invocations for one (chat, video) pair in a
trace. -/
def countSends (tr : List BotAction) (chat : Int) (vid : String) : Nat :=
  (tr.filter (fun a => decide (a = BotAction.sendVideo chat vid))).length

/-- The empty Redis keyspace. -/
def emptyRedis : RedisState where
  jobStatus := fun _ => none
  jobError := fun _ => none
  jobTotal := fun _ => none
  jobDownloadedField := fun _ => none
  jobFailedField := fun _ => none
  videos := fun _ _ => none
  downloads := fun _ => []
  pending := fun _ => []
  downloadedSet := fun _ => false
  videoFiles := fun _ => none
  sentVideos := fun _ _ => false
  sendQueue := []
  downloadQueue := []
  jobQueue := []
  jobChat := fun _ => none

/-- Strings carried by a downloader outcome (the returned path, or the
exception text) are double-quote free.  True of every value the real
downloader produces: paths are built from path components and Python
exception texts for HTTP errors carry no double quotes. -/
def dlFree : DLResult → Bool
  | .ok fp => dqFreeB fp
  | .err msg => dqFreeB msg

/-- Dedup-index consistency: every video in the global downloaded set
has a non-empty stored filepath.  `mark_video_downloaded` is the only
writer and always writes both, starting from the empty keyspace. -/
def goodDedupState (s : RedisState) : Prop :=
  ∀ v, s.downloadedSet v = true → ∃ fp, s.videoFiles v = some fp ∧ fp ≠ ""

/-- Sequential processing of the download tasks of a job, one
`process_download` after another (the schedule in which each task runs
to completion before the next starts). -/
def runDownloadsSeq (job : String) : List (String × DLResult) → RedisState → RedisState × List WorkerAction
  | [], s => (s, [])
  | t :: rest, s =>
    let r := process_download s job t.1 t.2
    let r2 := runDownloadsSeq job rest r.1
    (r2.1, r.2 ++ r2.2)

/-- The normal (non-racy) schedule of one job: create, run the scrape
worker to completion, then process each download task sequentially. -/
def runJobNormal (job username : String) (chat : Int) (outcome : ScrapeOutcome)
    (tasks : List (String × DLResult)) (s : RedisState) : RedisState × List WorkerAction :=
  let r0 := create_job s job username chat
  let r1 := scrape_worker_once r0.1 job outcome
  let r2 := runDownloadsSeq job tasks r1.1
  (r2.1, r0.2 ++ r1.2 ++ r2.2)

/-- A video descriptor used by the concrete scenarios. -/
def vdA : VideoData where
  video_url := "https://cdn.example/v1"
  description := "clip"
  username := "alice"

/-- C1 scenario, state after job creation: one job for user alice,
chat 7. -/
def c1s0 : RedisState := (create_job emptyRedis ("j1") ("alice") 7).1

/-- C1 scenario, state after the scrape worker found exactly one video:
status downloading, total_videos 1, one queued task. -/
def c1s1 : RedisState :=
  (scrape_worker_once c1s0 ("j1") (.success [(("v1"), vdA)])).1

/-- The filepath the downloader returns in the scenarios. -/
def fpA : String := "downloads/alice/v1.mp4"

/-- C1 scenario result: the single task downloads successfully. -/
def c1res : RedisState × List WorkerAction :=
  process_download c1s1 ("j1") ("v1") (.ok fpA)

/-- C2 counterexample run: the single task of the one-video job fails
with a transport error. -/
def c2res : RedisState × List WorkerAction :=
  process_download c1s1 ("j1") ("v1") (.err ("Connection reset by peer"))

/-- C3 racy schedule, step 1: scrape worker has marked the job scraping
and enqueued the task, but not yet written downloading/total_videos. -/
def c3r1 : RedisState × List WorkerAction :=
  scrapeEnqueuePart c1s0 ("j1") [(("v1"), vdA)]

/-- C3 racy schedule, step 2: the download task runs to completion
while the scrape worker is still suspended before its final
update_job. -/
def c3r2 : RedisState × List WorkerAction :=
  process_download c3r1.1 ("j1") ("v1") (.ok fpA)

/-- C3 racy schedule, step 3: the scrape worker resumes and writes
downloading and total_videos. -/
def c3r3 : RedisState × List WorkerAction :=
  scrapeFinishPart c3r2.1 ("j1") 1

/-- The job-status writes observed along the C3 racy schedule. -/
def c3statusTrace : List String :=
  statusWrites ("j1") ((create_job emptyRedis ("j1") ("alice") 7).2 ++ c3r1.2 ++ c3r2.2 ++ c3r3.2)

/-- C5 scenario: two jobs, each holding a task for the same video v1,
nothing downloaded yet. -/
def c5s0 : RedisState :=
  add_video_to_download (add_video_to_download c1s1 ("j2") ("v1") vdA) ("j1") ("v1") vdA

/-- C5 interleaving, task of job j1 after its dedup check: fetch and
record. -/
def c5r1 : RedisState × List WorkerAction :=
  pd_download_path c5s0 ("j1") ("v1") (.ok fpA)

/-- C5 interleaving, task of job j2 after its dedup check (which it ran
against the same state, before j1 recorded): fetch and record. -/
def c5r2 : RedisState × List WorkerAction :=
  pd_download_path c5r1.1 ("j2") ("v1") (.ok fpA)

/-- A disk with no file on it. -/
def emptyDisk : String → Bool := fun _ => false

/-- An HTTP 200 response whose body completes after zero bytes. -/
def zeroByteResponse : HttpResult := .response true ("") []

/-- C7 the downloader run on the zero-byte response. -/
def c7dl : DownloadOutcome × Bool × Nat :=
  download_video emptyDisk ("./downloads") ("https://cdn.example/v1") ("v1") ("alice") zeroByteResponse

/-- C7: the worker consumes the zero-byte downloader result. -/
def c7res : RedisState × List WorkerAction :=
  process_download c1s1 ("j1") ("v1") (DLResult.ofOutcome c7dl.1)

/-- Video ids v0, v1, ... of the C8 scenario. -/
def mkVid (i : Nat) : String := ("v") ++ toString i

/-- Filepaths of the C8 scenario. -/
def mkFp (i : Nat) : String := ("downloads/alice/v") ++ toString i ++ (".mp4")

/-- The 12 scraped videos of the C8 scenario. -/
def c8videos : List (String × VideoData) :=
  (List.range 12).map (fun i => (mkVid i, vdA))

/-- C8 scenario state after the scrape worker: 12 tasks queued,
total_videos 12, status downloading. -/
def c8s1 : RedisState :=
  (scrape_worker_once (create_job emptyRedis ("j8") ("alice") 9).1 ("j8") (.success c8videos)).1

/-- One C8 step: process download i, then, if a flush signal is queued,
run the sender worker once (pop the signal, flush a batch) and record
how many entries that flush dequeued. -/
def c8step (acc : RedisState × List Nat) (i : Nat) : RedisState × List Nat :=
  let s1 := (process_download acc.1 ("j8") (mkVid i) (.ok (mkFp i))).1
  match s1.sendQueue.getLast? with
  | none => (s1, acc.2)
  | some job =>
    let s2 : RedisState := { s1 with sendQueue := s1.sendQueue.dropLast }
    let size := (rpopN 5 (s2.pending job)).1.length
    let r := send_videos_batch (fun _ => true) s2 job 9
    (r.1, acc.2 ++ [size])

/-- The full C8 run: 12 successful downloads with a prompt flush after
every signal. -/
def c8run : RedisState × List Nat := (List.range 12).foldl c8step (c8s1, [])

theorem listContainsSub_eq_false_of_head_notMem (d : Char) (r : List Char) :
    ∀ hay : List Char, (∀ c ∈ hay, c ≠ d) → listContainsSub (d :: r) hay = false := by
  intro hay
  induction hay with
  | nil => intro _; rfl
  | cons c t ih =>
    intro h
    have hcd : (d == c) = false := by
      have : c ≠ d := h c (List.mem_cons_self c t)
      simp [beq_eq_false_iff_ne]
      exact fun hdc => this hdc.symm
    have ht : ∀ x ∈ t, x ≠ d := fun x hx => h x (List.mem_cons_of_mem c hx)
    simp [listContainsSub, List.isPrefixOf, hcd, ih ht]

/-- A double-quote-free string never contains either needle of
`get_job_stats`: both needles begin with a double quote. -/
theorem strContains_needle_eq_false (v : String) (h : dqFreeB v = true) :
    strContains v completedNeedle = false ∧ strContains v failedNeedle = false := by
  have hv : ∀ c ∈ v.data, c ≠ dqChar := by
    intro c hc
    have := (List.all_eq_true.mp h) c hc
    simpa using this
  constructor
  · have hshape : completedNeedle.data = dqChar :: (("status").data ++ dqChar :: ((": ").data ++ dqChar :: (("completed").data ++ [dqChar]))) := by
      rfl
    rw [strContains, hshape]
    exact listContainsSub_eq_false_of_head_notMem dqChar _ v.data hv
  · have hshape : failedNeedle.data = dqChar :: (("status").data ++ dqChar :: ((": ").data ++ dqChar :: (("failed").data ++ [dqChar]))) := by
      rfl
    rw [strContains, hshape]
    exact listContainsSub_eq_false_of_head_notMem dqChar _ v.data hv

theorem dqFreeB_append (a b : String) :
    dqFreeB (a ++ b) = (dqFreeB a && dqFreeB b) := by
  simp [dqFreeB, String.data_append, List.all_append]

/-- The serialized completed-download value is double-quote free whenever
the file path is. -/
theorem dqFreeB_workerCompletedValue (fp : String) (h : dqFreeB fp = true) :
    dqFreeB (workerCompletedValue fp) = true := by
  have : workerCompletedValue fp =
      (("\x7b") ++ pyPair ("status") (pyReprStr ("completed")) ++ (", ") ++
        pyPair ("progress") (PyVal.repr (.i 100)) ++ (", ") ++
        pyPair ("file_path") (sqStr)) ++ fp ++ (sqStr ++ ("\x7d")) := by
    simp only [workerCompletedValue, update_download_status_value, joinComma, List.map,
      pyPair, pyReprStr, PyVal.repr]
    simp [String.append_assoc]
  rw [this, dqFreeB_append, dqFreeB_append, h]
  decide

/-- The serialized reused-download value is double-quote free whenever
the file path is. -/
theorem dqFreeB_workerReusedValue (fp : String) (h : dqFreeB fp = true) :
    dqFreeB (workerReusedValue fp) = true := by
  have : workerReusedValue fp =
      (("\x7b") ++ pyPair ("status") (pyReprStr ("completed")) ++ (", ") ++
        pyPair ("progress") (PyVal.repr (.i 100)) ++ (", ") ++
        pyPair ("file_path") (sqStr)) ++ fp ++ (sqStr ++ (", ") ++
        pyPair ("reused") (PyVal.repr (.b true)) ++ ("\x7d")) := by
    simp only [workerReusedValue, update_download_status_value, joinComma, List.map,
      pyPair, pyReprStr, PyVal.repr]
    simp [String.append_assoc]
  rw [this, dqFreeB_append, dqFreeB_append, h]
  decide

/-- The serialized failed-download value is double-quote free whenever
the error message is. -/
theorem dqFreeB_workerFailedValue (err : String) (h : dqFreeB err = true) :
    dqFreeB (workerFailedValue err) = true := by
  have : workerFailedValue err =
      (("\x7b") ++ pyPair ("status") (pyReprStr ("failed")) ++ (", ") ++
        pyPair ("error") (sqStr)) ++ err ++ (sqStr ++ ("\x7d")) := by
    simp only [workerFailedValue, update_download_status_value, joinComma, List.map,
      pyPair, pyReprStr, PyVal.repr]
    simp [String.append_assoc]
  rw [this, dqFreeB_append, dqFreeB_append, h]
  decide

theorem dqFreeB_workerDownloadingValue : dqFreeB workerDownloadingValue = true := by
  decide

/-- Over a downloads hash all of whose values are double-quote free,
`get_job_stats` reports zero completed and zero failed, whatever the
actual recorded statuses are. -/
theorem get_job_stats_zero (downloads : List (String × String))
    (h : ∀ kv ∈ downloads, dqFreeB kv.2 = true) :
    (get_job_stats downloads).completed = 0 ∧ (get_job_stats downloads).failed = 0 := by
  constructor
  · simp only [get_job_stats]
    rw [List.length_eq_zero]
    rw [List.filter_eq_nil_iff]
    intro kv hkv
    have := (strContains_needle_eq_false kv.2 (h kv hkv)).1
    simp [this]
  · simp only [get_job_stats]
    rw [List.length_eq_zero]
    rw [List.filter_eq_nil_iff]
    intro kv hkv
    have := (strContains_needle_eq_false kv.2 (h kv hkv)).2
    simp [this]

theorem lookup_assocSet (l : List (String × String)) (k v : String) :
    (assocSet l k v).lookup k = some v := by
  induction l with
  | nil => simp [assocSet, List.lookup]
  | cons kv t ih =>
    obtain ⟨k0, v0⟩ := kv
    by_cases h : k0 = k
    · simp [assocSet, h, List.lookup]
    · simp only [assocSet, if_neg h, List.lookup]
      have : (k == k0) = false := by
        simp [beq_eq_false_iff_ne]
        exact fun he => h he.symm
      simp [this, ih]

theorem mem_assocSet (l : List (String × String)) (k v : String) :
    ∀ kv ∈ assocSet l k v, kv ∈ l ∨ kv = (k, v) := by
  induction l with
  | nil => intro kv h; simp [assocSet] at h; right; exact h
  | cons hd t ih =>
    obtain ⟨k0, v0⟩ := hd
    intro kv h
    by_cases hk : k0 = k
    · simp [assocSet, hk] at h
      rcases h with h | h
      · right; simpa using h
      · left; exact List.mem_cons_of_mem _ h
    · simp only [assocSet, if_neg hk, List.mem_cons] at h
      rcases h with h | h
      · left; simp [h]
      · rcases ih kv h with h2 | h2
        · left; exact List.mem_cons_of_mem _ h2
        · right; exact h2

theorem countAction_append (a b : List WorkerAction) (x : WorkerAction) :
    countAction (a ++ b) x = countAction a x + countAction b x := by
  simp [countAction, List.filter_append]

theorem statusWrites_append (job : String) (a b : List WorkerAction) :
    statusWrites job (a ++ b) = statusWrites job a ++ statusWrites job b := by
  simp [statusWrites, List.filterMap_append]

/-- C1: for every job whose total_videos has been set to N, the claim
says the job transitions to completed exactly when the completed plus
failed counts computed by `get_job_stats` reach N.  The code cannot do
this: `update_download_status` stores Python `str(dict)` values with
single quotes, while `get_job_stats` counts double-quoted substrings,
so both counts are always zero.  Concretely, in a one-video job whose
single task the worker just recorded as completed, the stats query
still reports zero completed and zero failed, the completion condition
is false, and the job stays in downloading forever instead of
transitioning to completed. -/
theorem c1_completion_never_fires :
    c1s1.jobTotal ("j1") = some 1 ∧
    c1res.1.downloads ("j1") = [(("v1"), workerCompletedValue fpA)] ∧
    get_job_stats (c1res.1.downloads ("j1")) =
      { total := 1, completed := 0, failed := 0, in_progress := 1 } ∧
    countAction c1res.2 (.setJobStatus ("j1") ("completed")) = 0 ∧
    c1res.1.jobStatus ("j1") = some ("downloading") ∧
    strContains (workerCompletedValue fpA) completedNeedle = false := by
  decide

/-- C2 counterexample: in the same one-video job, when the single task
fails, the except handler of `process_download` (worker.py 295-299)
records only the failed download status: it performs no stats query
(no completion check) and no job-status change, although all 1 of 1
tasks have reached a terminal outcome — refuting the claim that a
failed task triggers the same completion check as a completed one. -/
theorem c2_counterexample :
    c1s1.jobTotal ("j1") = some 1 ∧
    countAction c2res.2 (.getJobStats ("j1")) = 0 ∧
    countAction c2res.2 (.setJobStatus ("j1") ("completed")) = 0 ∧
    c2res.1.jobStatus ("j1") = some ("downloading") ∧
    (c2res.1.downloads ("j1")).lookup ("v1") =
      some (workerFailedValue ("Connection reset by peer")) := by
  decide

/-- C3 counterexample: the scrape worker enqueues download tasks before
writing `downloading` and `total_videos` (worker.py 86-93 precede
95-100), and every Redis call is an await point.  In the schedule where
the single download task runs to completion inside that window, the
completion check reads total_videos = 0 and marks the job completed;
the scrape worker then writes downloading.  The observed status
sequence is pending, scraping, completed, downloading — not a
subsequence of the claimed lifecycle, and completed is not terminal. -/
theorem c3_counterexample :
    c3statusTrace = [("pending"), ("scraping"), ("completed"), ("downloading")] ∧
    monotonicLifecycle c3statusTrace = false := by
  decide

/-- C5 counterexample: the dedup check (`sismember`) and the recording
(`sadd` after the fetch) are separate awaited Redis operations with no
lock and no compare-and-set.  In the interleaving where tasks of jobs
j1 and j2 for the same video v1 both run their check against the same
state (both seeing false) before either fetches, both proceed down the
download path: the combined trace invokes the downloader twice for v1,
and with an empty disk each invocation issues a network fetch —
refuting at-most-one-fetch for this interleaving. -/
theorem c5_counterexample :
    is_video_downloaded c5s0 ("v1") = false ∧
    countAction (c5r1.2 ++ c5r2.2) (.downloadVideo ("v1")) = 2 ∧
    (download_video emptyDisk ("./downloads") ("https://cdn.example/v1") ("v1") ("alice")
        (.response true ("") [4096])).2.1 = true := by
  decide

/-- C7 counterexample: a 200 response whose body completes after zero
bytes is returned by `download_video` as success with the destination
path (the code has no zero-byte check, downloader.py 44-69), and the
worker records the task completed, not failed. -/
theorem c7_counterexample :
    c7dl = (.ok (videoFilePath ("./downloads") ("alice") ("v1")), true, 0) ∧
    (c7res.1.downloads ("j1")).lookup ("v1") =
      some (workerCompletedValue (videoFilePath ("./downloads") ("alice") ("v1"))) ∧
    countAction c7res.2 (.updateDownloadStatus ("j1") ("v1") ("failed")) = 0 := by
  decide

/-- C8: with flush threshold 5, threshold flushes work, but the final
completion-triggered flush never happens, because the completion check
never fires (the `get_job_stats` quoting mismatch of C1).  In the
12-video scenario with a prompt flush after every signal, the flush
sizes are 5 and 5, summing to 10, not 12: two entries stay pending
forever, the job never leaves downloading, and no completion signal is
ever queued.  Each flush dequeues at most 5 entries. -/
theorem c8_batch_scenario :
    c8s1.jobTotal ("j8") = some 12 ∧
    c8run.2 = [5, 5] ∧
    c8run.2.sum = 10 ∧
    c8run.1.jobStatus ("j8") = some ("downloading") ∧
    (c8run.1.pending ("j8")).length = 2 ∧
    c8run.1.sendQueue = [] ∧
    get_job_stats (c8run.1.downloads ("j8")) =
      { total := 12, completed := 0, failed := 0, in_progress := 12 } ∧
    (∀ l : List String, ((rpopN 5 l).1).length ≤ 5) := by
  refine ⟨by decide, by decide, by decide, by decide, by decide, by decide, by decide, ?_⟩
  intro l
  simp [rpopN, List.length_take]

/-- C10: if the destination file `{download_path}/{username}/{video_id}.mp4`
already exists on disk, `download_video` returns that path at once,
independent of the HTTP oracle (no network request) and of anything in
Redis (the function never consults the global download set); the disk
is modelled as a bare existence predicate, so the size and
contents of the file are irrelevant by construction. -/
theorem c10_disk_idempotence (disk : String → Bool) (dp url vid user : String)
    (http : HttpResult) (h : disk (videoFilePath dp user vid) = true) :
    download_video disk dp url vid user http = (.ok (videoFilePath dp user vid), false, 0) := by
  simp [download_video, h]

/-- C10 witness: a disk holding exactly the destination file, with the
zero-byte response as the (unused) HTTP oracle. -/
theorem c10_witness :
    download_video (fun p => p == videoFilePath ("./downloads") ("alice") ("v1"))
      ("./downloads") ("https://cdn.example/v1") ("v1") ("alice") zeroByteResponse =
      (.ok (videoFilePath ("./downloads") ("alice") ("v1")), false, 0) :=
  c10_disk_idempotence _ _ _ _ _ _ (by decide)

theorem countAction_cons (a : WorkerAction) (tr : List WorkerAction) (x : WorkerAction) :
    countAction (a :: tr) x = (if a = x then 1 else 0) + countAction tr x := by
  by_cases h : a = x
  · simp [countAction, List.filter_cons, h]
    omega
  · simp [countAction, List.filter_cons, h]

theorem getJobStats_count_completion_check (s : RedisState) (job : String) :
    countAction (pd_completion_check s job).2 (.getJobStats job) = 1 := by
  unfold pd_completion_check
  dsimp only
  split
  · split <;> simp [countAction_cons, countAction]
  · simp [countAction_cons, countAction]

theorem getJobStats_count_enqueue_check (s : RedisState) (job vid fp : String) :
    countAction (pd_enqueue_and_check s job vid fp).2 (.getJobStats job) = 1 := by
  unfold pd_enqueue_and_check
  dsimp only
  rw [countAction_append, countAction_append]
  rw [getJobStats_count_completion_check]
  split <;> simp [countAction_cons, countAction]

theorem completion_check_preserves (s : RedisState) (job : String) :
    (pd_completion_check s job).1.videos = s.videos ∧
    (pd_completion_check s job).1.downloadedSet = s.downloadedSet ∧
    (pd_completion_check s job).1.videoFiles = s.videoFiles ∧
    (pd_completion_check s job).1.downloads = s.downloads ∧
    (pd_completion_check s job).1.jobTotal = s.jobTotal := by
  unfold pd_completion_check
  dsimp only
  split
  · split <;> simp
  · simp

theorem enqueue_check_preserves (s : RedisState) (job vid fp : String) :
    (pd_enqueue_and_check s job vid fp).1.videos = s.videos ∧
    (pd_enqueue_and_check s job vid fp).1.downloadedSet = s.downloadedSet ∧
    (pd_enqueue_and_check s job vid fp).1.videoFiles = s.videoFiles ∧
    (pd_enqueue_and_check s job vid fp).1.downloads = s.downloads ∧
    (pd_enqueue_and_check s job vid fp).1.jobTotal = s.jobTotal := by
  unfold pd_enqueue_and_check
  dsimp only
  split
  · simp [completion_check_preserves, add_pending_video]
  · simp [completion_check_preserves, add_pending_video]

theorem downloadVideo_count_completion_check (s : RedisState) (job vid : String) :
    countAction (pd_completion_check s job).2 (.downloadVideo vid) = 0 := by
  unfold pd_completion_check
  dsimp only
  split
  · split <;> simp [countAction_cons, countAction]
  · simp [countAction_cons, countAction]

theorem downloadVideo_count_enqueue_check (s : RedisState) (job vid fp v : String) :
    countAction (pd_enqueue_and_check s job vid fp).2 (.downloadVideo v) = 0 := by
  unfold pd_enqueue_and_check
  dsimp only
  rw [countAction_append, countAction_append, downloadVideo_count_completion_check]
  split <;> simp [countAction_cons, countAction]

theorem reuse_path_facts (s : RedisState) (job vid fp : String) :
    countAction (pd_reuse_path s job vid fp).2 (.downloadVideo vid) = 0 ∧
    ((pd_reuse_path s job vid fp).1.downloads job).lookup vid = some (workerReusedValue fp) := by
  unfold pd_reuse_path
  dsimp only
  constructor
  · rw [countAction_append, downloadVideo_count_enqueue_check]
    simp [countAction_cons, countAction]
  · rw [(enqueue_check_preserves _ _ _ _).2.2.2.1]
    simp [update_download_status, lookup_assocSet]

theorem pd_reuse_of_stored (s : RedisState) (job vid : String) (vd : VideoData) (fp : String)
    (dl : DLResult) (hv : s.videos job vid = some vd) (hd : s.downloadedSet vid = true)
    (hf : s.videoFiles vid = some fp) (hne : fp ≠ "") :
    process_download s job vid dl = pd_reuse_path s job vid fp := by
  simp [process_download, hv, is_video_downloaded, hd, get_video_filepath, hf, hne]

theorem download_path_ok_state (s : RedisState) (job vid fp : String) :
    (pd_download_path s job vid (.ok fp)).1.videos = s.videos ∧
    (pd_download_path s job vid (.ok fp)).1.downloadedSet vid = true ∧
    (pd_download_path s job vid (.ok fp)).1.videoFiles vid = some fp := by
  unfold pd_download_path
  dsimp only
  refine ⟨?_, ?_, ?_⟩
  · rw [(enqueue_check_preserves _ _ _ _).1]
    simp [update_download_status, mark_video_downloaded]
  · rw [(enqueue_check_preserves _ _ _ _).2.1]
    simp [update_download_status, mark_video_downloaded]
  · rw [(enqueue_check_preserves _ _ _ _).2.2.1]
    simp [update_download_status, mark_video_downloaded]

theorem downloadVideo_count_download_path (s : RedisState) (job vid : String) (dl : DLResult) :
    countAction (pd_download_path s job vid dl).2 (.downloadVideo vid) = 1 := by
  unfold pd_download_path
  dsimp only
  match dl with
  | .ok fp =>
    dsimp only
    rw [countAction_append, countAction_append, downloadVideo_count_enqueue_check]
    simp [countAction_cons, countAction]
  | .err msg =>
    simp [countAction_cons, countAction]

/-- C2 amended: a task that ends completed triggers the completion
check (exactly one `get_job_stats` query with the conditional
transition), while a task that ends failed only records its failed
status in the per-job downloads hash: the except handler performs no
stats query, no completion check and no job-status change. -/
theorem c2_amended (s : RedisState) (job vid : String) (vd : VideoData) (msg fp : String)
    (hv : s.videos job vid = some vd) (hd : is_video_downloaded s vid = false) :
    (countAction (process_download s job vid (.err msg)).2 (.getJobStats job) = 0 ∧
     (process_download s job vid (.err msg)).1.jobStatus = s.jobStatus ∧
     ((process_download s job vid (.err msg)).1.downloads job).lookup vid =
       some (workerFailedValue msg)) ∧
    countAction (process_download s job vid (.ok fp)).2 (.getJobStats job) = 1 := by
  have hpd : ∀ dl, process_download s job vid dl = pd_download_path s job vid dl := by
    intro dl
    simp [process_download, hv, hd]
  constructor
  · rw [hpd]
    refine ⟨?_, ?_, ?_⟩
    · simp [pd_download_path, countAction_cons, countAction]
    · simp [pd_download_path, update_download_status]
    · simp [pd_download_path, update_download_status, lookup_assocSet]
  · rw [hpd]
    unfold pd_download_path
    dsimp only
    rw [countAction_append]
    rw [getJobStats_count_enqueue_check]
    simp [countAction_cons, countAction]

/-- C2 amended witness: the one-video job of the C1 scenario, with a
failing and a succeeding download. -/
theorem c2_amended_witness :
    (countAction (process_download c1s1 ("j1") ("v1") (.err ("boom"))).2 (.getJobStats ("j1")) = 0 ∧
     (process_download c1s1 ("j1") ("v1") (.err ("boom"))).1.jobStatus = c1s1.jobStatus ∧
     ((process_download c1s1 ("j1") ("v1") (.err ("boom"))).1.downloads ("j1")).lookup ("v1") =
       some (workerFailedValue ("boom"))) ∧
    countAction (process_download c1s1 ("j1") ("v1") (.ok fpA)).2 (.getJobStats ("j1")) = 1 :=
  c2_amended c1s1 ("j1") ("v1") vdA ("boom") fpA (by decide) (by decide)

/-- C4: (1) whenever a video_id is in the global download set and the
dedup index is consistent (the set entry has a non-empty stored
filepath, which `mark_video_downloaded` always writes with it), any
download task for it, from any job, is recorded completed (reused) with
the stored path, never invokes the downloader, and its outcome is
independent of the network oracle; (2) concretely for two downloads of
the same video_id from two jobs: after the first completes, the second
resolves via the stored path with no downloader invocation. -/
theorem c4_reuse_no_refetch :
    (∀ s job vid vd dl, goodDedupState s → s.videos job vid = some vd →
        is_video_downloaded s vid = true →
        ∃ fp, get_video_filepath s vid = some fp ∧ fp ≠ ("") ∧
          countAction (process_download s job vid dl).2 (.downloadVideo vid) = 0 ∧
          ((process_download s job vid dl).1.downloads job).lookup vid =
            some (workerReusedValue fp) ∧
          (∀ dl2, process_download s job vid dl = process_download s job vid dl2)) ∧
    (∀ s j1 j2 vd1 vd2 vid fp dl, s.videos j1 vid = some vd1 → s.videos j2 vid = some vd2 →
        is_video_downloaded s vid = false → fp ≠ ("") →
        countAction (process_download (process_download s j1 vid (.ok fp)).1 j2 vid dl).2
            (.downloadVideo vid) = 0 ∧
        ((process_download (process_download s j1 vid (.ok fp)).1 j2 vid dl).1.downloads j2).lookup vid =
          some (workerReusedValue fp)) := by
  constructor
  · intro s job vid vd dl hg hv hd
    obtain ⟨fp, hf, hne⟩ := hg vid hd
    refine ⟨fp, hf, hne, ?_, ?_, ?_⟩
    · rw [pd_reuse_of_stored s job vid vd fp dl hv hd hf hne]
      exact (reuse_path_facts s job vid fp).1
    · rw [pd_reuse_of_stored s job vid vd fp dl hv hd hf hne]
      exact (reuse_path_facts s job vid fp).2
    · intro dl2
      rw [pd_reuse_of_stored s job vid vd fp dl hv hd hf hne,
          pd_reuse_of_stored s job vid vd fp dl2 hv hd hf hne]
  · intro s j1 j2 vd1 vd2 vid fp dl hv1 hv2 hd hne
    have hpd1 : process_download s j1 vid (.ok fp) = pd_download_path s j1 vid (.ok fp) := by
      simp [process_download, hv1, hd]
    rw [hpd1]
    obtain ⟨hvids, hset, hfile⟩ := download_path_ok_state s j1 vid fp
    have hv2b : (pd_download_path s j1 vid (.ok fp)).1.videos j2 vid = some vd2 := by
      rw [hvids]; exact hv2
    rw [pd_reuse_of_stored _ j2 vid vd2 fp dl hv2b hset hfile hne]
    exact reuse_path_facts _ j2 vid fp

/-- C4 witness: jobs j1 and j2 both hold video v1; after the first
download, the second resolves via the stored path even though its own
network oracle would fail. -/
theorem c4_witness :
    countAction (process_download (process_download c5s0 ("j1") ("v1") (.ok fpA)).1
        ("j2") ("v1") (.err ("boom"))).2 (.downloadVideo ("v1")) = 0 ∧
    ((process_download (process_download c5s0 ("j1") ("v1") (.ok fpA)).1
        ("j2") ("v1") (.err ("boom"))).1.downloads ("j2")).lookup ("v1") =
      some (workerReusedValue fpA) :=
  c4_reuse_no_refetch.2 c5s0 ("j1") ("j2") vdA vdA ("v1") fpA (.err ("boom"))
    (by decide) (by decide) (by decide) (by decide)

/-- C5 amended: the dedup check (a bare `sismember`) and the recording
(`sadd` plus `hset`, only after the fetch finishes) are separate Redis
operations with no lock and no compare-and-set, so two concurrent
tasks for the same video_id that both check before either records both
fetch (the counterexample interleaving); at most one fetch holds only
for serialized executions: when the second task starts after the first
has recorded, the first execution invokes the downloader exactly once
and the second not at all. -/
theorem c5_amended (s : RedisState) (j1 j2 vid : String) (vd1 vd2 : VideoData) (fp : String)
    (dl : DLResult) (hv1 : s.videos j1 vid = some vd1) (hv2 : s.videos j2 vid = some vd2)
    (hd : is_video_downloaded s vid = false) (hne : fp ≠ ("")) :
    countAction (process_download s j1 vid (.ok fp)).2 (.downloadVideo vid) = 1 ∧
    countAction (process_download (process_download s j1 vid (.ok fp)).1 j2 vid dl).2
      (.downloadVideo vid) = 0 := by
  have hpd1 : process_download s j1 vid (.ok fp) = pd_download_path s j1 vid (.ok fp) := by
    simp [process_download, hv1, hd]
  constructor
  · rw [hpd1]
    exact downloadVideo_count_download_path s j1 vid (.ok fp)
  · rw [hpd1]
    obtain ⟨hvids, hset, hfile⟩ := download_path_ok_state s j1 vid fp
    have hv2b : (pd_download_path s j1 vid (.ok fp)).1.videos j2 vid = some vd2 := by
      rw [hvids]; exact hv2
    rw [pd_reuse_of_stored _ j2 vid vd2 fp dl hv2b hset hfile hne]
    exact (reuse_path_facts _ j2 vid fp).1

/-- C5 amended witness: the two-job C5 state, serialized. -/
theorem c5_amended_witness :
    countAction (process_download c5s0 ("j1") ("v1") (.ok fpA)).2 (.downloadVideo ("v1")) = 1 ∧
    countAction (process_download (process_download c5s0 ("j1") ("v1") (.ok fpA)).1
        ("j2") ("v1") (.ok fpA)).2 (.downloadVideo ("v1")) = 0 :=
  c5_amended c5s0 ("j1") ("j2") ("v1") vdA vdA fpA (.ok fpA)
    (by decide) (by decide) (by decide) (by decide)

/-- C7 amended: a transport error or a non-success status raises, and
the worker records the task failed with the error message; but a
transfer that completes with zero body bytes (success status, empty
body) is not detected: `download_video` returns the destination path
as success, whatever the chunk list is, including the empty one. -/
theorem c7_amended (disk : String → Bool) (dp url vid user msg m : String)
    (chunks : List Nat) (s : RedisState) (job : String) (vd : VideoData)
    (hdisk : disk (videoFilePath dp user vid) = false)
    (hv : s.videos job vid = some vd) (hd : is_video_downloaded s vid = false) :
    download_video disk dp url vid user (.transportError msg) = (.raised msg, true, 0) ∧
    download_video disk dp url vid user (.response false m chunks) = (.raised m, true, 0) ∧
    (download_video disk dp url vid user (.response true m chunks)).1 =
      .ok (videoFilePath dp user vid) ∧
    ((process_download s job vid (.err msg)).1.downloads job).lookup vid =
      some (workerFailedValue msg) := by
  refine ⟨?_, ?_, ?_, ?_⟩
  · simp [download_video, hdisk]
  · simp [download_video, hdisk]
  · simp [download_video, hdisk]
  · have hpd : process_download s job vid (.err msg) = pd_download_path s job vid (.err msg) := by
      simp [process_download, hv, hd]
    rw [hpd]
    simp [pd_download_path, update_download_status, lookup_assocSet]

/-- C7 amended witness: empty disk, zero-byte success body, and the
one-video job for the failure-recording conjunct. -/
theorem c7_amended_witness :
    download_video emptyDisk ("./downloads") ("u") ("v1") ("alice") (.transportError ("rst")) =
      (.raised ("rst"), true, 0) ∧
    download_video emptyDisk ("./downloads") ("u") ("v1") ("alice") (.response false ("404") []) =
      (.raised ("404"), true, 0) ∧
    (download_video emptyDisk ("./downloads") ("u") ("v1") ("alice") (.response true ("") [])).1 =
      .ok (videoFilePath ("./downloads") ("alice") ("v1")) ∧
    ((process_download c1s1 ("j1") ("v1") (.err ("rst"))).1.downloads ("j1")).lookup ("v1") =
      some (workerFailedValue ("rst")) :=
  c7_amended emptyDisk ("./downloads") ("u") ("v1") ("alice") ("rst") ("404") [] c1s1 ("j1") vdA
    (by decide) (by decide) (by decide)

/-- The scrape failure handler never erases the message: a non-empty
exception text stays non-empty (it is either kept or replaced by the
fixed cookie hint). -/
theorem transformErrorMsg_ne_empty (m : String) (hm : m ≠ ("")) :
    transformErrorMsg m ≠ ("") := by
  unfold transformErrorMsg
  split
  · decide
  · exact hm

/-- C9: when the scrape phase of a job raises (profile fetch or video
listing, including the zero-videos case which the scrapers raise as an
error), the job ends failed with a non-empty error message, exactly one
notification goes to the mapped subscriber chat, and no VideoTask is
created: the per-job videos hash and the download queue are untouched
and no enqueue action appears in the trace. -/
theorem c9_scrape_failure (s : RedisState) (job m : String) (chat : Int)
    (hm : m ≠ ("")) (hc : s.jobChat job = some chat) :
    ∀ o ∈ [ScrapeOutcome.profileError m, ScrapeOutcome.videosError m],
      (scrape_worker_once s job o).1.jobStatus job = some ("failed") ∧
      (∃ e, (scrape_worker_once s job o).1.jobError job = some e ∧ e ≠ ("")) ∧
      countAction (scrape_worker_once s job o).2 (.notifyUser chat) = 1 ∧
      (scrape_worker_once s job o).1.videos = s.videos ∧
      (scrape_worker_once s job o).1.downloadQueue = s.downloadQueue ∧
      (∀ j v, countAction (scrape_worker_once s job o).2 (.addVideoToDownload j v) = 0) := by
  intro o ho
  have hcases : o = ScrapeOutcome.profileError m ∨ o = ScrapeOutcome.videosError m := by
    simpa using ho
  have hgoal : ∀ o2 ∈ [ScrapeOutcome.profileError m, ScrapeOutcome.videosError m],
      (scrape_worker_once s job o2).1.jobStatus job = some ("failed") ∧
      (∃ e, (scrape_worker_once s job o2).1.jobError job = some e ∧ e ≠ ("")) ∧
      countAction (scrape_worker_once s job o2).2 (.notifyUser chat) = 1 ∧
      (scrape_worker_once s job o2).1.videos = s.videos ∧
      (scrape_worker_once s job o2).1.downloadQueue = s.downloadQueue ∧
      (∀ j v, countAction (scrape_worker_once s job o2).2 (.addVideoToDownload j v) = 0) := by
    intro o2 ho2
    have hbody :
        scrape_worker_once s job o2 =
          ({ s with
              jobStatus := fun j =>
                if j = job then some ("failed")
                else if j = job then some ("scraping") else s.jobStatus j,
              jobError := fun j => if j = job then some (transformErrorMsg m) else s.jobError j },
           [WorkerAction.setJobStatus job ("scraping"),
            WorkerAction.setJobStatus job ("failed")] ++
             (match s.jobChat job with
              | some c => [WorkerAction.notifyUser c]
              | none => [])) := by
      rcases (by simpa using ho2 : o2 = ScrapeOutcome.profileError m ∨
          o2 = ScrapeOutcome.videosError m) with h | h <;> subst h <;> rfl
    rw [hbody, hc]
    refine ⟨by simp, ⟨transformErrorMsg m, by simp, transformErrorMsg_ne_empty m hm⟩, ?_, rfl, rfl, ?_⟩
    · simp [countAction_cons, countAction]
    · intro j v
      simp [countAction_cons, countAction]
  exact hgoal o ho

/-- C9 witness: the zero-videos error raised by the scraper on the C1
scenario job (whose chat mapping is 7); its text contains the word
bot, so the handler stores the cookie hint. -/
theorem c9_witness :
    (scrape_worker_once c1s0 ("j1")
        (.videosError ("TikTok returned 0 videos - likely bot detection or empty profile"))).1.jobStatus
      ("j1") = some ("failed") ∧
    countAction (scrape_worker_once c1s0 ("j1")
        (.videosError ("TikTok returned 0 videos - likely bot detection or empty profile"))).2
      (.notifyUser 7) = 1 ∧
    countAction (scrape_worker_once c1s0 ("j1")
        (.videosError ("TikTok returned 0 videos - likely bot detection or empty profile"))).2
      (.addVideoToDownload ("j1") ("v1")) = 0 := by
  have h := c9_scrape_failure c1s0 ("j1")
    ("TikTok returned 0 videos - likely bot detection or empty profile") 7 (by decide) (by decide)
    (ScrapeOutcome.videosError ("TikTok returned 0 videos - likely bot detection or empty profile"))
    (by simp)
  exact ⟨h.1, h.2.2.1, h.2.2.2.2.2 ("j1") ("v1")⟩
theorem countSends_nil (c : Int) (v : String) : countSends [] c v = 0 := rfl

theorem countSends_cons (a : BotAction) (tr : List BotAction) (c : Int) (v : String) :
    countSends (a :: tr) c v = (if a = BotAction.sendVideo c v then 1 else 0) + countSends tr c v := by
  by_cases h : a = BotAction.sendVideo c v
  · simp [countSends, List.filter_cons, h]
    omega
  · simp [countSends, List.filter_cons, h]

theorem countSends_append (a b : List BotAction) (c : Int) (v : String) :
    countSends (a ++ b) c v = countSends a c v + countSends b c v := by
  simp [countSends, List.filter_append]

theorem mark_video_sent_sent (s : RedisState) (chat : Int) (vid : String) (c : Int) (v : String) :
    (mark_video_sent s chat vid).sentVideos c v =
      if c = chat ∧ v = vid then true else s.sentVideos c v := rfl

theorem sendLoop_dedup (fe : String → Bool) (chat c : Int) (v : String) :
    ∀ (entries : List String) (s : RedisState),
      (s.sentVideos c v = true → ((sendLoop fe chat entries s).1.sentVideos c v = true ∧
        countSends (sendLoop fe chat entries s).2.1 c v = 0)) ∧
      countSends (sendLoop fe chat entries s).2.1 c v ≤ (if s.sentVideos c v then 0 else 1) ∧
      (1 ≤ countSends (sendLoop fe chat entries s).2.1 c v →
        (sendLoop fe chat entries s).1.sentVideos c v = true) := by
  intro entries
  induction entries with
  | nil =>
    intro s
    refine ⟨fun h => ⟨h, rfl⟩, ?_, ?_⟩
    · show (0 : Nat) ≤ _
      exact Nat.zero_le _
    · intro h
      exact absurd h (by simp [sendLoop, countSends_nil])
  | cons e rest ih =>
    intro s
    by_cases hcol : e.data.contains colonChar = false
    · have heq : sendLoop fe chat (e :: rest) s = sendLoop fe chat rest s := by
        show (if e.data.contains colonChar = false then _ else _) = _
        rw [if_pos hcol]
      rw [heq]
      exact ih s
    · by_cases hsent : is_video_sent s chat (splitFirstColon e).1 = true
      · have heq : sendLoop fe chat (e :: rest) s =
            ((sendLoop fe chat rest s).1, (sendLoop fe chat rest s).2.1,
             (sendLoop fe chat rest s).2.2.1, (sendLoop fe chat rest s).2.2.2 + 1) := by
          show (if e.data.contains colonChar = false then _ else _) = _
          rw [if_neg hcol, if_pos hsent]
        rw [heq]
        exact ih s
      · by_cases hfe : fe (splitFirstColon e).2 = false
        · have heq : sendLoop fe chat (e :: rest) s = sendLoop fe chat rest s := by
            show (if e.data.contains colonChar = false then _ else _) = _
            rw [if_neg hcol, if_neg hsent, if_pos hfe]
          rw [heq]
          exact ih s
        · have heq : sendLoop fe chat (e :: rest) s =
              ((sendLoop fe chat rest (mark_video_sent s chat (splitFirstColon e).1)).1,
               BotAction.sendVideo chat (splitFirstColon e).1 ::
                 BotAction.markSent chat (splitFirstColon e).1 ::
                   (sendLoop fe chat rest (mark_video_sent s chat (splitFirstColon e).1)).2.1,
               (sendLoop fe chat rest (mark_video_sent s chat (splitFirstColon e).1)).2.2.1 + 1,
               (sendLoop fe chat rest (mark_video_sent s chat (splitFirstColon e).1)).2.2.2) := by
            show (if e.data.contains colonChar = false then _ else _) = _
            rw [if_neg hcol, if_neg hsent, if_neg hfe]
          rw [heq]
          have hrec := ih (mark_video_sent s chat (splitFirstColon e).1)
          have hs0 : s.sentVideos chat (splitFirstColon e).1 = false := by
            simpa [is_video_sent] using hsent
          by_cases htgt : chat = c ∧ (splitFirstColon e).1 = v
          · obtain ⟨hc1, hv1⟩ := htgt
            subst hc1; subst hv1
            have hm : (mark_video_sent s chat (splitFirstColon e).1).sentVideos chat
                (splitFirstColon e).1 = true := by
              simp [mark_video_sent_sent]
            refine ⟨?_, ?_, ?_⟩
            · intro habs
              rw [habs] at hs0
              cases hs0
            · rw [countSends_cons, countSends_cons]
              have h0 := (hrec.1 hm).2
              rw [hs0]
              simp [h0]
            · intro _
              exact (hrec.1 hm).1
          · have hne : ¬(BotAction.sendVideo chat (splitFirstColon e).1 =
                BotAction.sendVideo c v) := by
              intro hh
              injection hh with h1 h2
              exact htgt ⟨h1, h2⟩
            have hmark : (mark_video_sent s chat (splitFirstColon e).1).sentVideos c v =
                s.sentVideos c v := by
              rw [mark_video_sent_sent]
              rw [if_neg]
              intro hh
              exact htgt ⟨hh.1.symm, hh.2.symm⟩
            refine ⟨?_, ?_, ?_⟩
            · intro hst
              have hh := hrec.1 (by rw [hmark]; exact hst)
              refine ⟨hh.1, ?_⟩
              rw [countSends_cons, countSends_cons]
              simp [hne, hh.2]
            · rw [countSends_cons, countSends_cons]
              rw [if_neg hne]
              have hb := hrec.2.1
              rw [hmark] at hb
              have hms : ¬(BotAction.markSent chat (splitFirstColon e).1 =
                  BotAction.sendVideo c v) := by
                intro hh
                cases hh
              rw [if_neg hms]
              simpa using hb
            · intro h1
              rw [countSends_cons, countSends_cons, if_neg hne] at h1
              have hms : ¬(BotAction.markSent chat (splitFirstColon e).1 =
                  BotAction.sendVideo c v) := by
                intro hh
                cases hh
              rw [if_neg hms] at h1
              simp only [Nat.zero_add] at h1
              exact hrec.2.2 h1

theorem get_pending_videos_sent (s : RedisState) (job : String) (n : Nat) :
    (get_pending_videos s job n).2.sentVideos = s.sentVideos := rfl

theorem batch_dedup (fe : String → Bool) (s : RedisState) (job : String) (chat c : Int) (v : String) :
    (s.sentVideos c v = true → ((send_videos_batch fe s job chat).1.sentVideos c v = true ∧
      countSends (send_videos_batch fe s job chat).2.1 c v = 0)) ∧
    countSends (send_videos_batch fe s job chat).2.1 c v ≤ (if s.sentVideos c v then 0 else 1) ∧
    (1 ≤ countSends (send_videos_batch fe s job chat).2.1 c v →
      (send_videos_batch fe s job chat).1.sentVideos c v = true) := by
  have hloop := sendLoop_dedup fe chat c v (get_pending_videos s job 5).1 (get_pending_videos s job 5).2
  rw [get_pending_videos_sent] at hloop
  unfold send_videos_batch
  dsimp only
  have hsum : ∀ tr : List BotAction, ∀ sc sk : Nat,
      countSends (if sc > 0 || sk > 0 then tr ++ [BotAction.sendSummary chat sc sk] else tr) c v =
        countSends tr c v := by
    intro tr sc sk
    split
    · rw [countSends_append, countSends_cons, countSends_nil]
      rw [if_neg (by intro hh; cases hh)]
      omega
    · rfl
  rw [hsum]
  exact hloop

theorem runFlushes_dedup (fe : String → Bool) (c : Int) (v : String) :
    ∀ (flushes : List (String × Int)) (s : RedisState),
      (s.sentVideos c v = true → ((runFlushes fe flushes s).1.sentVideos c v = true ∧
        countSends (runFlushes fe flushes s).2 c v = 0)) ∧
      countSends (runFlushes fe flushes s).2 c v ≤ (if s.sentVideos c v then 0 else 1) := by
  intro flushes
  induction flushes with
  | nil =>
    intro s
    refine ⟨fun h => ⟨h, rfl⟩, ?_⟩
    show (0 : Nat) ≤ _
    exact Nat.zero_le _
  | cons jc rest ih =>
    intro s
    have heq : runFlushes fe (jc :: rest) s =
        ((runFlushes fe rest (send_videos_batch fe s jc.1 jc.2).1).1,
         (send_videos_batch fe s jc.1 jc.2).2.1 ++
           (runFlushes fe rest (send_videos_batch fe s jc.1 jc.2).1).2) := rfl
    rw [heq]
    have hb := batch_dedup fe s jc.1 jc.2 c v
    have hr := ih (send_videos_batch fe s jc.1 jc.2).1
    constructor
    · intro hst
      obtain ⟨hst2, hc1⟩ := hb.1 hst
      obtain ⟨hst3, hc2⟩ := hr.1 hst2
      exact ⟨hst3, by rw [countSends_append, hc1, hc2]⟩
    · rw [countSends_append]
      by_cases hst : s.sentVideos c v = true
      · obtain ⟨hst2, hc1⟩ := hb.1 hst
        obtain ⟨_, hc2⟩ := hr.1 hst2
        rw [hc1, hc2, hst]
        exact Nat.le_refl 0
      · have hsf : s.sentVideos c v = false := by
          cases hbool : s.sentVideos c v
          · rfl
          · exact absurd hbool hst
        have hgoal1 : (if s.sentVideos c v = true then (0 : Nat) else 1) = 1 := by
          rw [hsf]
          simp
        have hbudget : countSends (send_videos_batch fe s jc.1 jc.2).2.1 c v ≤ 1 :=
          le_trans hb.2.1 (le_of_eq hgoal1)
        by_cases h1 : 1 ≤ countSends (send_videos_batch fe s jc.1 jc.2).2.1 c v
        · have hst2 := hb.2.2 h1
          obtain ⟨_, hc2⟩ := hr.1 hst2
          omega
        · have hz : countSends (send_videos_batch fe s jc.1 jc.2).2.1 c v = 0 := by omega
          have hrest : countSends (runFlushes fe rest (send_videos_batch fe s jc.1 jc.2).1).2 c v ≤ 1 :=
            le_trans hr.2 (by split <;> simp)
          omega

theorem sendLoop_all_sent (fe : String → Bool) (chat : Int) :
    ∀ (entries : List String) (s : RedisState),
      (∀ e ∈ entries, e.data.contains colonChar = true ∧
        s.sentVideos chat (splitFirstColon e).1 = true) →
      sendLoop fe chat entries s = (s, [], 0, entries.length) := by
  intro entries
  induction entries with
  | nil => intro s _; rfl
  | cons e rest ih =>
    intro s h
    obtain ⟨hcol, hsent⟩ := h e (List.mem_cons_self e rest)
    have hcol2 : ¬(e.data.contains colonChar = false) := by
      rw [hcol]
      intro hh
      cases hh
    have hsent2 : is_video_sent s chat (splitFirstColon e).1 = true := hsent
    have heq : sendLoop fe chat (e :: rest) s =
        ((sendLoop fe chat rest s).1, (sendLoop fe chat rest s).2.1,
         (sendLoop fe chat rest s).2.2.1, (sendLoop fe chat rest s).2.2.2 + 1) := by
      show (if e.data.contains colonChar = false then _ else _) = _
      rw [if_neg hcol2, if_pos hsent2]
    rw [heq, ih s (fun x hx => h x (List.mem_cons_of_mem e hx))]
    simp

/-- C6: at-most-once delivery.  (1) Across any sequence of batch
flushes from any state, the Notifier send for a given (chat, video_id)
pair runs at most once — zero times if the pair is already in the
delivery set — because each flush checks the per-chat sent set before
sending and records the pair immediately after (flushes are executed
one at a time by the single `video_sender_worker` loop).  (2) A flush
whose dequeued entries all parse to already-sent pairs invokes the
Notifier for none of them, reports sent 0, and counts every entry as a
duplicate skip rather than an error. -/
theorem c6_at_most_once_delivery :
    (∀ (fe : String → Bool) (flushes : List (String × Int)) (s : RedisState) (c : Int) (v : String),
      countSends (runFlushes fe flushes s).2 c v ≤ (if s.sentVideos c v then 0 else 1)) ∧
    (∀ (fe : String → Bool) (s : RedisState) (job : String) (chat : Int),
      (∀ e ∈ (get_pending_videos s job 5).1, e.data.contains colonChar = true ∧
          s.sentVideos chat (splitFirstColon e).1 = true) →
      (send_videos_batch fe s job chat).2.2.1 = 0 ∧
      (send_videos_batch fe s job chat).2.2.2 = (get_pending_videos s job 5).1.length ∧
      (∀ c v, countSends (send_videos_batch fe s job chat).2.1 c v = 0)) := by
  constructor
  · intro fe flushes s c v
    exact (runFlushes_dedup fe c v flushes s).2
  · intro fe s job chat h
    have h2 : ∀ e ∈ (get_pending_videos s job 5).1, e.data.contains colonChar = true ∧
        (get_pending_videos s job 5).2.sentVideos chat (splitFirstColon e).1 = true := by
      rw [get_pending_videos_sent]
      exact h
    have hloop := sendLoop_all_sent fe chat (get_pending_videos s job 5).1
      (get_pending_videos s job 5).2 h2
    unfold send_videos_batch
    dsimp only
    rw [hloop]
    refine ⟨rfl, rfl, ?_⟩
    intro c v
    dsimp only
    split
    · rw [List.nil_append, countSends_cons, countSends_nil]
      rw [if_neg (by intro hh; cases hh)]
    · rfl

/-- C6 witness state: one pending entry for job j1 whose pair
(chat 7, v1) is already in the delivery set. -/
def c6wState : RedisState :=
  mark_video_sent (add_pending_video emptyRedis ("j1") ("v1") ("f1")) 7 ("v1")

/-- C6 witness: flushing that job sends nothing, skips the one entry as
a duplicate, and invokes the Notifier zero times for the pair. -/
theorem c6_witness :
    (send_videos_batch (fun _ => true) c6wState ("j1") 7).2.2.1 = 0 ∧
    (send_videos_batch (fun _ => true) c6wState ("j1") 7).2.2.2 =
      (get_pending_videos c6wState ("j1") 5).1.length ∧
    countSends (send_videos_batch (fun _ => true) c6wState ("j1") 7).2.1 7 ("v1") = 0 := by
  have h := c6_at_most_once_delivery.2 (fun _ => true) c6wState ("j1") 7 (by decide)
  exact ⟨h.1, h.2.1, h.2.2 7 ("v1")⟩

theorem uds_dqfree (s : RedisState) (job vid value : String) (hval : dqFreeB value = true)
    (hd : ∀ kv ∈ s.downloads job, dqFreeB kv.2 = true) :
    ∀ kv ∈ (update_download_status s job vid value).downloads job, dqFreeB kv.2 = true := by
  intro kv hkv
  simp only [update_download_status, if_pos rfl] at hkv
  rcases mem_assocSet (s.downloads job) vid value kv hkv with h | h
  · exact hd kv h
  · rw [h]
    exact hval

theorem completion_check_noop (s : RedisState) (job : String) (n : Nat) (hn : 1 ≤ n)
    (ht : s.jobTotal job = some n)
    (hd : ∀ kv ∈ s.downloads job, dqFreeB kv.2 = true) :
    pd_completion_check s job = (s, [WorkerAction.getJobStats job]) := by
  unfold pd_completion_check
  dsimp only
  rw [if_neg]
  obtain ⟨hc, hf⟩ := get_job_stats_zero (s.downloads job) hd
  rw [hc, hf, ht]
  simp
  omega

theorem completion_check_no_status (s : RedisState) (job : String) (n : Nat) (hn : 1 ≤ n)
    (ht : s.jobTotal job = some n)
    (hd : ∀ kv ∈ s.downloads job, dqFreeB kv.2 = true) :
    statusWrites job (pd_completion_check s job).2 = [] := by
  rw [completion_check_noop s job n hn ht hd]
  simp [statusWrites]

theorem enqueue_check_no_status (s : RedisState) (job vid fp : String) (n : Nat) (hn : 1 ≤ n)
    (ht : s.jobTotal job = some n)
    (hd : ∀ kv ∈ s.downloads job, dqFreeB kv.2 = true) :
    statusWrites job (pd_enqueue_and_check s job vid fp).2 = [] := by
  unfold pd_enqueue_and_check
  dsimp only
  rw [statusWrites_append, statusWrites_append]
  have ht2 : (if get_pending_video_count (add_pending_video s job vid fp) job ≥ 5 then
      ({ add_pending_video s job vid fp with
          sendQueue := job :: (add_pending_video s job vid fp).sendQueue },
        [WorkerAction.pushSendVideosQueue job])
    else (add_pending_video s job vid fp, ([] : List WorkerAction))).1.jobTotal job = some n := by
    split
    · exact ht
    · exact ht
  have hd2 : ∀ kv ∈ (if get_pending_video_count (add_pending_video s job vid fp) job ≥ 5 then
      ({ add_pending_video s job vid fp with
          sendQueue := job :: (add_pending_video s job vid fp).sendQueue },
        [WorkerAction.pushSendVideosQueue job])
    else (add_pending_video s job vid fp, ([] : List WorkerAction))).1.downloads job,
      dqFreeB kv.2 = true := by
    split
    · exact hd
    · exact hd
  rw [completion_check_no_status _ job n hn ht2 hd2]
  have h2 : statusWrites job (if get_pending_video_count (add_pending_video s job vid fp) job ≥ 5 then
      ({ add_pending_video s job vid fp with
          sendQueue := job :: (add_pending_video s job vid fp).sendQueue },
        [WorkerAction.pushSendVideosQueue job])
    else (add_pending_video s job vid fp, ([] : List WorkerAction))).2 = [] := by
    split
    · simp [statusWrites]
    · simp [statusWrites]
  rw [h2]
  simp [statusWrites]

theorem reuse_path_invariant (s : RedisState) (job vid fp : String) (n : Nat) (hn : 1 ≤ n)
    (hfp : dqFreeB fp = true)
    (ht : s.jobTotal job = some n)
    (hd : ∀ kv ∈ s.downloads job, dqFreeB kv.2 = true)
    (hf : ∀ v f, s.videoFiles v = some f → dqFreeB f = true) :
    statusWrites job (pd_reuse_path s job vid fp).2 = [] ∧
    (∀ kv ∈ (pd_reuse_path s job vid fp).1.downloads job, dqFreeB kv.2 = true) ∧
    (∀ v f, (pd_reuse_path s job vid fp).1.videoFiles v = some f → dqFreeB f = true) ∧
    (pd_reuse_path s job vid fp).1.jobTotal job = some n := by
  have hd1 : ∀ kv ∈ (update_download_status s job vid (workerReusedValue fp)).downloads job,
      dqFreeB kv.2 = true :=
    uds_dqfree s job vid (workerReusedValue fp) (dqFreeB_workerReusedValue fp hfp) hd
  have ht1 : (update_download_status s job vid (workerReusedValue fp)).jobTotal job = some n := ht
  unfold pd_reuse_path
  dsimp only
  rw [statusWrites_append]
  rw [enqueue_check_no_status _ job vid fp n hn ht1 hd1]
  refine ⟨by simp [statusWrites], ?_, ?_, ?_⟩
  · rw [(enqueue_check_preserves _ job vid fp).2.2.2.1]
    exact hd1
  · rw [(enqueue_check_preserves _ job vid fp).2.2.1]
    exact hf
  · rw [(enqueue_check_preserves _ job vid fp).2.2.2.2]
    exact ht1

theorem download_path_invariant (s : RedisState) (job vid : String) (dl : DLResult) (n : Nat)
    (hn : 1 ≤ n) (hdl : dlFree dl = true)
    (ht : s.jobTotal job = some n)
    (hd : ∀ kv ∈ s.downloads job, dqFreeB kv.2 = true)
    (hf : ∀ v f, s.videoFiles v = some f → dqFreeB f = true) :
    statusWrites job (pd_download_path s job vid dl).2 = [] ∧
    (∀ kv ∈ (pd_download_path s job vid dl).1.downloads job, dqFreeB kv.2 = true) ∧
    (∀ v f, (pd_download_path s job vid dl).1.videoFiles v = some f → dqFreeB f = true) ∧
    (pd_download_path s job vid dl).1.jobTotal job = some n := by
  have hd1 : ∀ kv ∈ (update_download_status s job vid workerDownloadingValue).downloads job,
      dqFreeB kv.2 = true :=
    uds_dqfree s job vid workerDownloadingValue dqFreeB_workerDownloadingValue hd
  unfold pd_download_path
  dsimp only
  match dl with
  | .ok fp =>
    have hfp : dqFreeB fp = true := hdl
    have hd2 : ∀ kv ∈ (update_download_status
        (mark_video_downloaded (update_download_status s job vid workerDownloadingValue) vid fp)
        job vid (workerCompletedValue fp)).downloads job, dqFreeB kv.2 = true :=
      uds_dqfree _ job vid (workerCompletedValue fp) (dqFreeB_workerCompletedValue fp hfp) hd1
    have ht2 : (update_download_status
        (mark_video_downloaded (update_download_status s job vid workerDownloadingValue) vid fp)
        job vid (workerCompletedValue fp)).jobTotal job = some n := ht
    have hf2 : ∀ v f, (update_download_status
        (mark_video_downloaded (update_download_status s job vid workerDownloadingValue) vid fp)
        job vid (workerCompletedValue fp)).videoFiles v = some f → dqFreeB f = true := by
      intro v f hvf
      simp only [update_download_status, mark_video_downloaded] at hvf
      by_cases hveq : v = vid
      · rw [if_pos hveq] at hvf
        cases hvf
        exact hfp
      · rw [if_neg hveq] at hvf
        exact hf v f hvf
    dsimp only
    rw [statusWrites_append, statusWrites_append]
    rw [enqueue_check_no_status _ job vid fp n hn ht2 hd2]
    refine ⟨by simp [statusWrites], ?_, ?_, ?_⟩
    · rw [(enqueue_check_preserves _ job vid fp).2.2.2.1]
      exact hd2
    · rw [(enqueue_check_preserves _ job vid fp).2.2.1]
      exact hf2
    · rw [(enqueue_check_preserves _ job vid fp).2.2.2.2]
      exact ht2
  | .err msg =>
    have hmsg : dqFreeB msg = true := hdl
    dsimp only
    refine ⟨by simp [statusWrites], ?_, ?_, ?_⟩
    · exact uds_dqfree _ job vid (workerFailedValue msg) (dqFreeB_workerFailedValue msg hmsg) hd1
    · exact hf
    · exact ht

theorem pd_invariant_step (s : RedisState) (job vid : String) (dl : DLResult) (n : Nat)
    (hn : 1 ≤ n) (hdl : dlFree dl = true)
    (ht : s.jobTotal job = some n)
    (hd : ∀ kv ∈ s.downloads job, dqFreeB kv.2 = true)
    (hf : ∀ v f, s.videoFiles v = some f → dqFreeB f = true) :
    statusWrites job (process_download s job vid dl).2 = [] ∧
    (∀ kv ∈ (process_download s job vid dl).1.downloads job, dqFreeB kv.2 = true) ∧
    (∀ v f, (process_download s job vid dl).1.videoFiles v = some f → dqFreeB f = true) ∧
    (process_download s job vid dl).1.jobTotal job = some n := by
  unfold process_download
  cases hv : s.videos job vid with
  | none =>
    dsimp only
    exact ⟨rfl, hd, hf, ht⟩
  | some vd =>
    dsimp only
    by_cases hds : is_video_downloaded s vid
    · rw [if_pos hds]
      cases hvf : get_video_filepath s vid with
      | none => exact download_path_invariant s job vid dl n hn hdl ht hd hf
      | some fp =>
        dsimp only
        by_cases hfe : fp = ""
        · rw [if_pos hfe]
          exact download_path_invariant s job vid dl n hn hdl ht hd hf
        · rw [if_neg hfe]
          have hfp : dqFreeB fp = true := hf vid fp hvf
          exact reuse_path_invariant s job vid fp n hn hfp ht hd hf
    · rw [if_neg hds]
      exact download_path_invariant s job vid dl n hn hdl ht hd hf

theorem runSeq_no_status (job : String) (n : Nat) (hn : 1 ≤ n) :
    ∀ (tasks : List (String × DLResult)) (s : RedisState),
      (∀ td ∈ tasks, dlFree td.2 = true) →
      s.jobTotal job = some n →
      (∀ kv ∈ s.downloads job, dqFreeB kv.2 = true) →
      (∀ v f, s.videoFiles v = some f → dqFreeB f = true) →
      statusWrites job (runDownloadsSeq job tasks s).2 = [] := by
  intro tasks
  induction tasks with
  | nil => intro s _ _ _ _; rfl
  | cons td rest ih =>
    intro s hdl ht hd hf
    have hstep := pd_invariant_step s job td.1 td.2 n hn
      (hdl td (List.mem_cons_self td rest)) ht hd hf
    have heq : runDownloadsSeq job (td :: rest) s =
        ((runDownloadsSeq job rest (process_download s job td.1 td.2).1).1,
         (process_download s job td.1 td.2).2 ++
           (runDownloadsSeq job rest (process_download s job td.1 td.2).1).2) := rfl
    rw [heq]
    dsimp only
    rw [statusWrites_append, hstep.1]
    rw [ih (process_download s job td.1 td.2).1
      (fun x hx => hdl x (List.mem_cons_of_mem td hx)) hstep.2.2.2 hstep.2.1 hstep.2.2.1]
    rfl

theorem runSeq_novideos (job : String) :
    ∀ (tasks : List (String × DLResult)) (s : RedisState),
      (∀ v, s.videos job v = none) →
      runDownloadsSeq job tasks s = (s, []) := by
  intro tasks
  induction tasks with
  | nil => intro s _; rfl
  | cons td rest ih =>
    intro s h
    have hpd : process_download s job td.1 td.2 = (s, []) := by
      unfold process_download
      rw [h td.1]
    have heq : runDownloadsSeq job (td :: rest) s =
        ((runDownloadsSeq job rest (process_download s job td.1 td.2).1).1,
         (process_download s job td.1 td.2).2 ++
           (runDownloadsSeq job rest (process_download s job td.1 td.2).1).2) := rfl
    rw [heq, hpd]
    dsimp only
    rw [ih s h]
    rfl

theorem scrapeEnqueueState_preserves (job : String) :
    ∀ (vs : List (String × VideoData)) (s : RedisState),
      (scrapeEnqueueState job vs s).downloads = s.downloads ∧
      (scrapeEnqueueState job vs s).videoFiles = s.videoFiles ∧
      (scrapeEnqueueState job vs s).jobTotal = s.jobTotal ∧
      (scrapeEnqueueState job vs s).jobStatus = s.jobStatus := by
  intro vs
  induction vs with
  | nil => intro s; exact ⟨rfl, rfl, rfl, rfl⟩
  | cons v rest ih =>
    intro s
    have heq : scrapeEnqueueState job (v :: rest) s =
        scrapeEnqueueState job rest (add_video_to_download s job v.1 v.2) := rfl
    rw [heq]
    exact ih (add_video_to_download s job v.1 v.2)

theorem statusWrites_addVideos (job : String) (vs : List (String × VideoData)) :
    statusWrites job (vs.map (fun v => WorkerAction.addVideoToDownload job v.1)) = [] := by
  induction vs with
  | nil => rfl
  | cons v rest ih =>
    simp only [List.map_cons, statusWrites, List.filterMap_cons] at ih ⊢
    exact ih

/-- C3 amended: the racy counterexample is the only violation — under
the normal schedule, in which the scrape worker finishes (writing
`downloading` and `total_videos`) before any download task
of the job is processed, the observed status sequence is monotonic: pending,
scraping, then downloading (success) or failed (scrape error), and no
download task ever moves the job status again, because the completion
condition compares against a total of at least 1 while `get_job_stats`
counts zero for the double-quote-free values the worker stores (the
hypotheses say the paths and error texts from the downloader carry no
double quote, true of the real downloader). -/
theorem c3_amended (job username : String) (chat : Int) (outcome : ScrapeOutcome)
    (tasks : List (String × DLResult)) (s : RedisState)
    (h1 : s.downloads job = [])
    (h2 : ∀ v, s.videos job v = none)
    (h3 : ∀ v f, s.videoFiles v = some f → dqFreeB f = true)
    (h4 : ∀ td ∈ tasks, dlFree td.2 = true) :
    monotonicLifecycle (statusWrites job (runJobNormal job username chat outcome tasks s).2) = true := by
  unfold runJobNormal
  dsimp only
  rw [statusWrites_append, statusWrites_append]
  have hw0 : statusWrites job (create_job s job username chat).2 = [("pending")] := by
    simp [create_job, statusWrites, List.filterMap_cons]
  rw [hw0]
  cases outcome with
  | success vs =>
    have hse : scrape_worker_once (create_job s job username chat).1 job (.success vs) =
        ((scrapeFinishPart (scrapeEnqueuePart (create_job s job username chat).1 job vs).1
            job vs.length).1,
         (scrapeEnqueuePart (create_job s job username chat).1 job vs).2 ++
           (scrapeFinishPart (scrapeEnqueuePart (create_job s job username chat).1 job vs).1
             job vs.length).2) := rfl
    rw [hse]
    dsimp only
    rw [statusWrites_append]
    have hw1 : statusWrites job
        (scrapeEnqueuePart (create_job s job username chat).1 job vs).2 = [("scraping")] := by
      unfold scrapeEnqueuePart
      dsimp only
      have : statusWrites job (WorkerAction.setJobStatus job ("scraping") ::
          vs.map (fun v => WorkerAction.addVideoToDownload job v.1)) =
          ("scraping") :: statusWrites job (vs.map (fun v => WorkerAction.addVideoToDownload job v.1)) := by
        simp [statusWrites, List.filterMap_cons]
      rw [this, statusWrites_addVideos]
    have hw2 : statusWrites job
        (scrapeFinishPart (scrapeEnqueuePart (create_job s job username chat).1 job vs).1
          job vs.length).2 = [("downloading")] := by
      unfold scrapeFinishPart
      simp [statusWrites, List.filterMap_cons]
    rw [hw1, hw2]
    have hfin := scrapeEnqueueState_preserves job vs
      { (create_job s job username chat).1 with
        jobStatus := fun j => if j = job then some ("scraping")
          else (create_job s job username chat).1.jobStatus j }
    cases vs with
    | nil =>
      have hnov : ∀ v, (scrapeFinishPart
          (scrapeEnqueuePart (create_job s job username chat).1 job []).1
          job (([] : List (String × VideoData)).length)).1.videos job v = none := by
        intro v
        exact h2 v
      rw [runSeq_novideos job tasks _ hnov]
      dsimp only [statusWrites, List.filterMap_nil]
      decide
    | cons v0 vr =>
      have hn : 1 ≤ (v0 :: vr).length := by
        rw [List.length_cons]
        omega
      have ht : (scrapeFinishPart
          (scrapeEnqueuePart (create_job s job username chat).1 job (v0 :: vr)).1
          job (v0 :: vr).length).1.jobTotal job = some (v0 :: vr).length := by
        unfold scrapeFinishPart
        simp
      have hdl : ∀ kv ∈ (scrapeFinishPart
          (scrapeEnqueuePart (create_job s job username chat).1 job (v0 :: vr)).1
          job (v0 :: vr).length).1.downloads job, dqFreeB kv.2 = true := by
        intro kv hkv
        have hdeq : (scrapeFinishPart
            (scrapeEnqueuePart (create_job s job username chat).1 job (v0 :: vr)).1
            job (v0 :: vr).length).1.downloads job = s.downloads job := by
          show (scrapeEnqueuePart (create_job s job username chat).1 job (v0 :: vr)).1.downloads job =
            s.downloads job
          unfold scrapeEnqueuePart
          dsimp only
          rw [(scrapeEnqueueState_preserves job (v0 :: vr) _).1]
          rfl
        rw [hdeq, h1] at hkv
        cases hkv
      have hvf : ∀ v f, (scrapeFinishPart
          (scrapeEnqueuePart (create_job s job username chat).1 job (v0 :: vr)).1
          job (v0 :: vr).length).1.videoFiles v = some f → dqFreeB f = true := by
        intro v f hv
        have hveq : (scrapeFinishPart
            (scrapeEnqueuePart (create_job s job username chat).1 job (v0 :: vr)).1
            job (v0 :: vr).length).1.videoFiles = s.videoFiles := by
          show (scrapeEnqueuePart (create_job s job username chat).1 job (v0 :: vr)).1.videoFiles =
            s.videoFiles
          unfold scrapeEnqueuePart
          dsimp only
          rw [(scrapeEnqueueState_preserves job (v0 :: vr) _).2.1]
          rfl
        rw [hveq] at hv
        exact h3 v f hv
      rw [runSeq_no_status job (v0 :: vr).length hn tasks _ h4 ht hdl hvf]
      decide
  | profileError m =>
    have herr : scrape_worker_once (create_job s job username chat).1 job (.profileError m) =
        ({ { (create_job s job username chat).1 with
              jobStatus := fun j => if j = job then some ("scraping")
                else (create_job s job username chat).1.jobStatus j } with
            jobStatus := fun j => if j = job then some ("failed")
              else if j = job then some ("scraping")
                else (create_job s job username chat).1.jobStatus j,
            jobError := fun j => if j = job then some (transformErrorMsg m)
              else (create_job s job username chat).1.jobError j },
         [WorkerAction.setJobStatus job ("scraping"),
          WorkerAction.setJobStatus job ("failed")] ++
           (match (create_job s job username chat).1.jobChat job with
            | some c => [WorkerAction.notifyUser c]
            | none => [])) := rfl
    rw [herr]
    dsimp only
    rw [statusWrites_append]
    have hw1 : statusWrites job [WorkerAction.setJobStatus job ("scraping"),
        WorkerAction.setJobStatus job ("failed")] = [("scraping"), ("failed")] := by
      simp [statusWrites, List.filterMap_cons]
    have hw2 : statusWrites job
        (match (create_job s job username chat).1.jobChat job with
         | some c => [WorkerAction.notifyUser c]
         | none => []) = [] := by
      cases hch : (create_job s job username chat).1.jobChat job with
      | some c => simp [statusWrites, List.filterMap_cons]
      | none => rfl
    rw [hw1, hw2]
    rw [runSeq_novideos job tasks]
    dsimp only [statusWrites, List.filterMap_nil]
    decide
    exact fun v => h2 v
  | videosError m =>
    have herr : scrape_worker_once (create_job s job username chat).1 job (.videosError m) =
        ({ { (create_job s job username chat).1 with
              jobStatus := fun j => if j = job then some ("scraping")
                else (create_job s job username chat).1.jobStatus j } with
            jobStatus := fun j => if j = job then some ("failed")
              else if j = job then some ("scraping")
                else (create_job s job username chat).1.jobStatus j,
            jobError := fun j => if j = job then some (transformErrorMsg m)
              else (create_job s job username chat).1.jobError j },
         [WorkerAction.setJobStatus job ("scraping"),
          WorkerAction.setJobStatus job ("failed")] ++
           (match (create_job s job username chat).1.jobChat job with
            | some c => [WorkerAction.notifyUser c]
            | none => [])) := rfl
    rw [herr]
    dsimp only
    rw [statusWrites_append]
    have hw1 : statusWrites job [WorkerAction.setJobStatus job ("scraping"),
        WorkerAction.setJobStatus job ("failed")] = [("scraping"), ("failed")] := by
      simp [statusWrites, List.filterMap_cons]
    have hw2 : statusWrites job
        (match (create_job s job username chat).1.jobChat job with
         | some c => [WorkerAction.notifyUser c]
         | none => []) = [] := by
      cases hch : (create_job s job username chat).1.jobChat job with
      | some c => simp [statusWrites, List.filterMap_cons]
      | none => rfl
    rw [hw1, hw2]
    rw [runSeq_novideos job tasks]
    dsimp only [statusWrites, List.filterMap_nil]
    decide
    exact fun v => h2 v

/-- C3 amended witness: a fresh one-video job on the empty keyspace,
scraped successfully and downloaded sequentially. -/
theorem c3_amended_witness :
    monotonicLifecycle (statusWrites ("j1")
      (runJobNormal ("j1") ("alice") 7 (.success [(("v1"), vdA)])
        [(("v1"), DLResult.ok fpA)] emptyRedis).2) = true :=
  c3_amended ("j1") ("alice") 7 (.success [(("v1"), vdA)]) [(("v1"), DLResult.ok fpA)] emptyRedis
    rfl (fun _ => rfl) (fun v f h => by cases h) (by decide)
